import Mathlib

/-!
Shallow embedding of the multi-agent coordination system (coordinator,
research agent, memory agent) for verifying the specification's claims.

Python strings are modelled as Lean `String`s but every operation is
re-implemented over `List Char` (the core library's `String.toLower`,
`String.splitOn`, ... do not reduce in the kernel).  Python's dynamic
`dict`/`list` payloads are modelled by the JSON-like type `Val`; operations
that would raise `TypeError`/`AttributeError`/`KeyError` in Python are
modelled with `Option`, `none` standing for an exception.  Machine floats
are modelled as exact rationals (`ℚ`): the source only applies +, -, *, /,
min and max to short decimal literals, and no claim exercises an input at
which binary rounding of those literals could change a comparison.
Asynchronous worker
invocations are modelled as oracle parameters: the worker's returned
`TaskResult` is passed in, which is faithful because the coordinator treats
those results as opaque values.
-/

namespace MultiAgent

/-! ## Python string primitives (over `List Char`) -/

/-- Python `str.lower()` (ASCII, which is all the source uses). -/
def lowerStr (s : String) : String := (s.toList.map Char.toLower).asString

/-- Python `str.split()` with no argument: split on whitespace runs, no empties. -/
def splitWs (s : String) : List String :=
  ((s.toList.splitOnP Char.isWhitespace).map List.asString).filter (fun w => w ≠ "")

/-- Whether `needle` occurs in `hay` (Python's `needle in hay` on strings). -/
def isSubstrOf (needle hay : String) : Bool :=
  hay.toList.tails.any (fun t => needle.toList.isPrefixOf t)

/-- Python `str.strip(chars)`: remove the given characters from both ends. -/
def stripChars (cs : List Char) (s : String) : String :=
  (((s.toList.dropWhile (· ∈ cs)).reverse.dropWhile (· ∈ cs)).reverse).asString

/-- Python `str.strip()` with no argument: strip whitespace from both ends. -/
def stripWsStr (s : String) : String :=
  (((s.toList.dropWhile Char.isWhitespace).reverse.dropWhile Char.isWhitespace).reverse).asString

/-- Python `s.split(sep)` for a single-character separator (the modelled code
only splits on "_" and a newline), keeping empty segments. -/
def splitOnCharStr (s : String) (c : Char) : List String :=
  (s.toList.splitOnP (fun x => x = c)).map List.asString

/-- Python `s.replace(old, new)` for a single-character pattern. -/
def replaceStr (s : String) (old : Char) (new : String) : String :=
  String.intercalate new (splitOnCharStr s old)

/-- Python `sep.join(parts)`. -/
def joinWith (sep : String) (parts : List String) : String :=
  String.intercalate sep parts

/-- Python `str.title()` restricted to ASCII: uppercase a letter that follows a
non-letter, lowercase every other letter. -/
def titleStr (s : String) : String :=
  ((s.toList.foldl
    (fun (acc : List Char × Bool) c =>
      if c.isAlpha then (acc.1 ++ [if acc.2 then c.toLower else c.toUpper], true)
      else (acc.1 ++ [c], false))
    ([], false)).1).asString

/-- Python slicing `s[:n]`. -/
def takeStr (s : String) (n : ℕ) : String := (s.toList.take n).asString

/-- Python `len` on a string (character count; the source is ASCII-only). -/
def strLen (s : String) : ℕ := s.toList.length

/-- Python `str.isalpha()`. -/
def pyIsAlpha (s : String) : Bool := s ≠ "" && s.toList.all Char.isAlpha

/-- A word character for the `\b`-delimited regex search in the memory agent's
dispatch (`re.search(rf"\b{word}\b", text)`). -/
def isWordChar (c : Char) : Bool := c.isAlphanum || c = '_'

/-- Maximal runs of word characters of a text. -/
def wordRuns (s : String) : List String :=
  ((s.toList.splitOnP (fun c => ¬ isWordChar c)).map List.asString).filter (fun w => w ≠ "")

/-- Whether `word` (itself made of word characters) occurs whole-word in `text`:
the memory agent's `_has_word`. -/
def hasWord (text word : String) : Bool := (wordRuns text).contains word

/-- Value of a digit run, `none` when a non-digit appears. -/
def digitsVal? (ds : List Char) : Option ℕ :=
  ds.foldlM (fun acc c => if c.isDigit then some (acc * 10 + (c.toNat - 48)) else none) 0

/-- Parse an unsigned decimal number (digits, optionally a dot and digits). -/
def parseUnsignedDec? (l : List Char) : Option ℚ :=
  match l.span Char.isDigit with
  | (intPart, rest) =>
    match rest with
    | [] => if intPart.isEmpty then none else (digitsVal? intPart).map (fun n => (n : ℚ))
    | '.' :: frac =>
      if frac.all Char.isDigit ∧ ¬ (intPart.isEmpty ∧ frac.isEmpty) then
        match digitsVal? intPart, digitsVal? frac with
        | some ip, some fp => some ((ip : ℚ) + (fp : ℚ) / ((10 : ℚ) ^ frac.length))
        | some ip, none => if frac.isEmpty then some ((ip : ℚ)) else none
        | none, some fp => if intPart.isEmpty then some ((fp : ℚ) / ((10 : ℚ) ^ frac.length)) else none
        | none, none => none
      else none
    | _ => none

/-- Python `float(s)` for plain decimal literals with an optional sign
(scientific notation, inf and nan are not used by the modelled code). -/
def parseFloat? (s : String) : Option ℚ :=
  match (stripWsStr s).toList with
  | '-' :: rest => (parseUnsignedDec? rest).map (fun q => -q)
  | '+' :: rest => parseUnsignedDec? rest
  | l => parseUnsignedDec? l

/-! ## Dynamic values (`Dict[str, Any]` payloads) -/

/-- JSON-like model of Python's dynamic values as they cross agent boundaries. -/
inductive Val where
  | null
  | bool (b : Bool)
  | num (q : ℚ)
  | str (s : String)
  | arr (xs : List Val)
  | obj (kvs : List (String × Val))

/-- Key lookup in an object's pair list (Python dicts have unique keys). -/
def lookupKey : List (String × Val) → String → Option Val
  | [], _ => none
  | (k, v) :: rest, key => if k = key then some v else lookupKey rest key

/-- Python truthiness. -/
def Val.isTruthy : Val → Bool
  | .null => false
  | .bool b => b
  | .num q => q ≠ 0
  | .str s => s ≠ ""
  | .arr xs => ¬ xs.isEmpty
  | .obj kvs => ¬ kvs.isEmpty

/-- Python `len(v)`; `none` models the `TypeError` on unsized values. -/
def pyLen? : Val → Option ℕ
  | .arr xs => some xs.length
  | .obj kvs => some kvs.length
  | .str s => some (strLen s)
  | _ => none

/-- Python iteration `for r in v`: list elements, dict keys, string characters;
`none` models the `TypeError` on non-iterables. -/
def pyElems? : Val → Option (List Val)
  | .arr xs => some xs
  | .obj kvs => some (kvs.map (fun kv => Val.str kv.1))
  | .str s => some (s.toList.map (fun c => Val.str c.toString))
  | _ => none

/-- Python `key in v` for a string key: dict keys, list membership, substring;
`none` models the `TypeError` on other values. -/
def pyContains? (v : Val) (key : String) : Option Bool :=
  match v with
  | .obj kvs => some (lookupKey kvs key).isSome
  | .arr xs => some (xs.any (fun e => match e with | .str s => s = key | _ => false))
  | .str s => some (isSubstrOf key s)
  | _ => none

/-- Python `float(v)`; `none` models the exceptions on unconvertible values. -/
def pyFloat? : Val → Option ℚ
  | .num q => some q
  | .bool b => some (if b then 1 else 0)
  | .str s => parseFloat? s
  | _ => none

/-- Rendering of a rational for `repr`/`str`/`json.dumps`: the modelled payloads
only carry integers, so only the integral case is exercised. -/
def numRender (q : ℚ) : String :=
  if q.den = 1 then (if q.num < 0 then "-" ++ Nat.repr q.num.natAbs else Nat.repr q.num.natAbs)
  else (if q.num < 0 then "-" ++ Nat.repr q.num.natAbs else Nat.repr q.num.natAbs)
       ++ "/" ++ Nat.repr q.den

mutual

/-- Python `repr(v)` (no escaping: the modelled data holds no quotes). -/
def pyRepr : Val → String
  | .null => "None"
  | .bool b => if b then "True" else "False"
  | .num q => numRender q
  | .str s => "'" ++ s ++ "'"
  | .arr xs => "[" ++ joinWith ", " (pyReprList xs) ++ "]"
  | .obj kvs => "\x7b" ++ joinWith ", " (pyReprPairs kvs) ++ "\x7d"

/-- Element renderings of a list for `pyRepr`. -/
def pyReprList : List Val → List String
  | [] => []
  | v :: vs => pyRepr v :: pyReprList vs

/-- Pair renderings of a dict for `pyRepr`. -/
def pyReprPairs : List (String × Val) → List String
  | [] => []
  | (k, v) :: kvs => ("'" ++ k ++ "': " ++ pyRepr v) :: pyReprPairs kvs

end

/-- Python `str(v)`: like `repr` but a bare string stays itself. -/
def pyStr : Val → String
  | .str s => s
  | v => pyRepr v

mutual

/-- Python `json.dumps(v)` with default separators (no escaping needed by the
modelled payloads). -/
def dumpJson : Val → String
  | .null => "null"
  | .bool b => if b then "true" else "false"
  | .num q => numRender q
  | .str s => "\"" ++ s ++ "\""
  | .arr xs => "[" ++ joinWith ", " (dumpJsonList xs) ++ "]"
  | .obj kvs => "\x7b" ++ joinWith ", " (dumpJsonPairs kvs) ++ "\x7d"

/-- Element renderings of a list for `dumpJson`. -/
def dumpJsonList : List Val → List String
  | [] => []
  | v :: vs => dumpJson v :: dumpJsonList vs

/-- Pair renderings of a dict for `dumpJson`. -/
def dumpJsonPairs : List (String × Val) → List String
  | [] => []
  | (k, v) :: kvs => ("\"" ++ k ++ "\": " ++ dumpJson v) :: dumpJsonPairs kvs

end

/-- Model of `models/message.py`'s `TaskResult` (pydantic model). -/
structure TaskResult where
  agent_id : String
  success : Bool
  data : Val
  confidence : ℚ
  execution_time : ℚ
  error : Option String := none

/-! ## Research agent (`agents/research_agent.py`) -/

/-- The mock knowledge base's `neural_networks` entry. -/
def kbNeuralNetworks : Val := .obj [
  ("types", .arr [.str "CNN", .str "RNN", .str "LSTM", .str "GRU", .str "Transformer"]),
  ("applications", .arr [.str "image recognition", .str "NLP", .str "time series"]),
  ("description", .str "Neural networks are computing systems inspired by biological neural networks")]

/-- The mock knowledge base's `machine_learning` entry. -/
def kbMachineLearning : Val := .obj [
  ("algorithms", .arr [.str "SVM", .str "Random Forest", .str "Gradient Boosting", .str "Neural Networks"]),
  ("types", .arr [.str "supervised", .str "unsupervised", .str "reinforcement"]),
  ("optimization", .arr [.str "gradient descent", .str "adam", .str "rmsprop", .str "adagrad"])]

/-- The mock knowledge base's `transformers` entry. -/
def kbTransformers : Val := .obj [
  ("architectures", .arr [.str "BERT", .str "GPT", .str "T5", .str "BART"]),
  ("efficiency", .obj [("BERT", .str "high memory"), ("GPT", .str "autoregressive"),
    ("T5", .str "text-to-text")]),
  ("tradeoffs", .str "computational cost vs performance")]

/-- The research agent's `knowledge_base`, in insertion order. -/
def knowledgeBase : List (String × Val) :=
  [("neural_networks", kbNeuralNetworks), ("machine_learning", kbMachineLearning),
   ("transformers", kbTransformers)]

/-- Direct keyword matching: topics one of whose name tokens occurs in the
lower-cased query. -/
def directMatches (query : String) : List (String × Val) :=
  knowledgeBase.filter (fun tv => (splitOnCharStr tv.1 '_').any (fun kw => isSubstrOf kw query))

/-- The research agent's stop-word set for the fuzzy fallback. -/
def researchStopWords : List String :=
  ["what", "is", "are", "how", "the", "a", "an", "and", "or", "but", "in", "on", "at",
   "to", "for", "of", "with", "by", "about", "from", "can", "you", "tell", "me"]

/-- Meaningful query words for the fuzzy fallback (no stop words, length > 2). -/
def fuzzyQueryWords (query : String) : List String :=
  (splitWs query).filter (fun w => (!(researchStopWords.contains w)) && decide (strLen w > 2))

/-- Fuzzy fallback: topics for which at least 30 percent of the meaningful query
words occur in `str(data).lower()`. -/
def fuzzyMatches (query : String) : List (String × Val) :=
  let qw := fuzzyQueryWords query
  if qw.isEmpty then []
  else knowledgeBase.filter (fun tv =>
    decide (10 * (qw.countP (fun w => isSubstrOf w (lowerStr (pyRepr tv.2)))) ≥ 3 * qw.length))

/-- The fixed AI/ML domain-keyword list of the domain-limitation fallback. -/
def domainKeywords : List String :=
  ["neural", "network", "machine", "learning", "transformer", "ai", "artificial",
   "intelligence", "algorithm", "model", "training", "data", "deep", "classification",
   "regression", "supervised", "unsupervised", "reinforcement"]

/-- Whether any domain keyword occurs (as a substring) in the lower-cased query. -/
def hasDomainKeyword (query : String) : Bool :=
  domainKeywords.any (fun k => isSubstrOf k query)

/-- The knowledge-limitation message (an f-string over the raw message content). -/
def limitationMessage (content : String) : String :=
  "I don't have specific information about '" ++ content ++
  "' in my current knowledge base. My expertise covers machine learning, neural networks, transformers, optimization techniques, and related AI topics. Could you ask about one of these areas instead?"

/-- The data payload of the domain-limitation result. -/
def limitationData (content query : String) : Val := .obj [
  ("research_results", .obj [("knowledge_limitation", .obj [
    ("message", .str (limitationMessage content)),
    ("domain", .str "AI/ML topics only"),
    ("suggested_topics", .arr [.str "neural networks", .str "machine learning algorithms",
      .str "transformer architectures", .str "optimization techniques"])])]),
  ("query", .str query),
  ("limitation_detected", .bool true)]

/-- The research agent's `process_task` on a message with the given content.
`execTime` stands for the measured wall-clock execution time. -/
def researchProcessTask (content : String) (execTime : ℚ) : TaskResult :=
  let query := lowerStr content
  let direct := directMatches query
  let results := if direct.isEmpty then fuzzyMatches query else direct
  let confidence : ℚ :=
    if direct.isEmpty then (1/5) * ((fuzzyMatches query).length : ℚ)
    else (3/10) * (direct.length : ℚ)
  if results.isEmpty && !(hasDomainKeyword query) then
    { agent_id := "research_agent", success := true, data := limitationData content query,
      confidence := 9/10, execution_time := execTime }
  else
    { agent_id := "research_agent", success := !results.isEmpty,
      data := .obj [("research_results", .obj results), ("query", .str query)],
      confidence := min confidence 1, execution_time := execTime }

/-! ## Memory agent (`memory/memory_agent.py`) -/

/-- Metadata record attached to a document in a Chroma collection.  The
conversation branch stores a `sender` field and the knowledge branch does not:
`sender = none` models the latter. -/
structure ChromaMeta where
  timestamp : String
  sender : Option String := none
  mtype : String
  topic : String
  keywords_csv : String
  source : String
  agent : String
  confidence : ℚ

/-- One document of a Chroma collection (id, document text, metadata). -/
structure DocEntry where
  id : String
  doc : String
  meta : ChromaMeta

/-- One entry of the JSON metadata mirror.  The conversation mirror stores a
`sender` field, the knowledge mirror does not (`sender = none`). -/
structure MemRecord where
  content : String
  data : Val
  timestamp : String
  sender : Option String := none
  topic : Option Val := none
  keywords : List String
  source : String
  agent : String
  confidence : ℚ

/-- Association-list lookup (first match; Python dicts have unique keys). -/
def alookup {α : Type} : List (String × α) → String → Option α
  | [], _ => none
  | (k, v) :: rest, key => if k = key then some v else alookup rest key

/-- Python dict assignment `d[k] = v`: overwrite in place, else append. -/
def aupsert {α : Type} (l : List (String × α)) (k : String) (v : α) : List (String × α) :=
  if (alookup l k).isSome then l.map (fun kv => if kv.1 = k then (k, v) else kv)
  else l ++ [(k, v)]

/-- The memory agent's persistent state: the three Chroma collections and the
two JSON metadata mirrors.  `agentState` is the conversation mirror's optional
`__agent_state__` aggregate list (`none` when the key is absent). -/
structure MemState where
  convDocs : List DocEntry := []
  knowDocs : List DocEntry := []
  agentDocs : List DocEntry := []
  convMeta : List (String × MemRecord) := []
  knowMeta : List (String × MemRecord) := []
  agentState : Option (List Val) := none

/-- The empty memory state (fresh storage directory). -/
def MemState.empty : MemState := {}

/-- The fields of `message.metadata` that the memory agent reads.  An absent
field is `none`/`[]`/an empty dict, matching the source's `metadata.get`
defaults.  (The coordinator's unused `raw_answer` key is not modelled: no
memory-agent code path reads it.) -/
structure MMeta where
  data : Val := .obj []
  memory_type : Option String := none
  topic : Option Val := none
  keywords : List String := []
  source : Option String := none
  confidence : Option ℚ := none
  agent : Option String := none
  memory_id : Option String := none
  limit : Option ℕ := none

/-- The punctuation characters stripped from word ends by keyword extraction. -/
def punctChars : List Char :=
  ['.', ',', ':', ';', '!', '?', '#', '(', ')', '[', ']', '{', '}', '"', '\'']

/-- The store fallback's automatic keyword extraction: lower-cased words with the
punctuation stripped, alphabetic, longer than 3 characters, capped at 10. -/
def autoKeywords (content : String) : List String :=
  (((splitWs (lowerStr content)).map (stripChars punctChars)).filter
    (fun w => pyIsAlpha w && decide (strLen w > 3))).take 10

/-- The keywords a store uses: the supplied ones, else automatic extraction. -/
def storeKeywordsOf (content : String) (meta : MMeta) : List String :=
  if meta.keywords.isEmpty then autoKeywords content else meta.keywords

/-- The topic a store uses: the supplied one, else `data.get("topic")`. -/
def storeTopicOf (meta : MMeta) : Option Val :=
  match meta.topic with
  | some t => some t
  | none =>
    match meta.data with
    | .obj kvs =>
      match lookupKey kvs "topic" with
      | some .null => none
      | some v => some v
      | none => none
    | _ => none

/-- The mirror record a conversation store writes. -/
def convRecordOf (content sender : String) (meta : MMeta) (ts : String) : MemRecord :=
  { content := content, data := meta.data, timestamp := ts, sender := some sender,
    topic := storeTopicOf meta, keywords := storeKeywordsOf content meta,
    source := meta.source.getD "unknown", agent := meta.agent.getD sender,
    confidence := meta.confidence.getD (1/2) }

/-- The `_store_memory` handler.  `ts` stands for the wall-clock reading used
both in the generated id (`datetime.now().timestamp()`) and as the stored
timestamp string; the claims never relate the two renderings, so one opaque
parameter models both.  The knowledge and agent_state branches evaluate
`self._cheap_embed`, an attribute that is never defined anywhere in the
repository, so they raise `AttributeError` before writing anything; the
`.error` results model that exception. -/
def storeMemory (st : MemState) (content sender : String) (meta : MMeta) (ts : String) :
    MemState × Except String Val :=
  let data := meta.data
  let memoryType := meta.memory_type.getD "conversation"
  let source := meta.source.getD "unknown"
  let confidence := meta.confidence.getD (1/2)
  let agentName := meta.agent.getD sender
  let memoryId := memoryType ++ "_" ++ ts
  let contentText := content ++ " " ++ dumpJson data
  let keywords := storeKeywordsOf content meta
  let topic : Option Val := storeTopicOf meta
  let keywordsCsv := if keywords.isEmpty then "" else joinWith "," keywords
  let topicStr := match topic with | some v => pyStr v | none => ""
  let stored : Val := .obj [("action", .str "stored"), ("memory_id", .str memoryId),
    ("memory_type", .str memoryType), ("content_length", .num (strLen contentText))]
  if memoryType = "conversation" then
    let cmeta : ChromaMeta :=
      { timestamp := ts, sender := some sender,
        mtype := "conversation", topic := topicStr, keywords_csv := keywordsCsv,
        source := source, agent := agentName, confidence := confidence }
    let record : MemRecord := convRecordOf content sender meta ts
    ({ st with convDocs := st.convDocs ++ [⟨memoryId, contentText, cmeta⟩],
               convMeta := aupsert st.convMeta memoryId record }, .ok stored)
  else if memoryType = "knowledge" then
    (st, .error "AttributeError: MemoryAgent object has no attribute _cheap_embed")
  else if memoryType = "agent_state" then
    (st, .error "AttributeError: MemoryAgent object has no attribute _cheap_embed")
  else
    (st, .ok stored)

/-- Dict shape of a mirror record, with the conversation and knowledge key
orders of the source's two dict literals. -/
def memRecordToVal (r : MemRecord) : Val :=
  let topicV := r.topic.getD .null
  match r.sender with
  | some snd => .obj [("content", .str r.content), ("data", r.data),
      ("timestamp", .str r.timestamp), ("sender", .str snd), ("topic", topicV),
      ("keywords", .arr (r.keywords.map .str)), ("source", .str r.source),
      ("agent", .str r.agent), ("confidence", .num r.confidence)]
  | none => .obj [("content", .str r.content), ("data", r.data),
      ("timestamp", .str r.timestamp), ("source", .str r.source),
      ("confidence", .num r.confidence), ("topic", topicV),
      ("keywords", .arr (r.keywords.map .str)), ("agent", .str r.agent)]

/-- Python `{"id": k, **v}`. -/
def withId (k : String) (v : Val) : Val :=
  match v with
  | .obj kvs => .obj (("id", .str k) :: kvs)
  | other => other

/-- The `_retrieve_memory` handler. -/
def retrieveMemory (st : MemState) (meta : MMeta) : Val :=
  let memoryType := meta.memory_type.getD "conversation"
  let lim := meta.limit.getD 5
  let mid := meta.memory_id.getD ""
  let notFound : Val := .obj [("action", .str "retrieved"), ("result", .str "not found")]
  if mid ≠ "" then
    if memoryType = "conversation" then
      match alookup st.convMeta mid with
      | some r => .obj [("action", .str "retrieved"), ("memory", memRecordToVal r)]
      | none => notFound
    else if memoryType = "knowledge" then
      match alookup st.knowMeta mid with
      | some r => .obj [("action", .str "retrieved"), ("memory", memRecordToVal r)]
      | none => notFound
    else notFound
  else
    let metadata := if memoryType = "conversation" then st.convMeta else st.knowMeta
    let recent := (List.mergeSort metadata
      (fun a b => decide (b.2.timestamp ≤ a.2.timestamp))).take lim
    .obj [("action", .str "retrieved"),
      ("memories", .arr (recent.map (fun kv => withId kv.1 (memRecordToVal kv.2)))),
      ("count", .num (recent.length : ℚ))]

/-- Dict shape of a Chroma metadata record, with the key order of the stored
branch (conversation when `sender` is present, knowledge otherwise). -/
def chromaMetaToVal (m : ChromaMeta) : Val :=
  match m.sender with
  | some snd => .obj [("timestamp", .str m.timestamp), ("sender", .str snd),
      ("type", .str m.mtype), ("topic", .str m.topic),
      ("keywords_csv", .str m.keywords_csv), ("source", .str m.source),
      ("agent", .str m.agent), ("confidence", .num m.confidence)]
  | none => .obj [("timestamp", .str m.timestamp), ("source", .str m.source),
      ("confidence", .num m.confidence), ("type", .str m.mtype),
      ("topic", .str m.topic), ("keywords_csv", .str m.keywords_csv),
      ("agent", .str m.agent)]

/-- One hit as returned by the Chroma vector query (`collection.query`). -/
structure BackendHit where
  doc : String
  meta : ChromaMeta
  distance : Option ℚ := none
  id : Option String := none

/-- Post-hoc topic filter: `(topic_filter is None) or (meta.get("topic") == topic_filter)`.
The stored topic is a string, so a non-string filter value never matches. -/
def matchTopicF (topicFilter : Option Val) (storedTopic : String) : Bool :=
  match topicFilter with
  | none => true
  | some (.str t) => storedTopic = t
  | some _ => false

/-- Post-hoc keyword filter: any filter keyword occurs as a substring of the
stored comma-separated keywords string. -/
def matchKeywordsF (keywordsFilter : List String) (storedCsv : String) : Bool :=
  if keywordsFilter.isEmpty then true
  else keywordsFilter.any (fun k => isSubstrOf k storedCsv)

/-- Option-valued ℚ as a `Val` (`None` or a float). -/
def optNumToVal : Option ℚ → Val
  | none => .null
  | some q => .num q

/-- Option-valued string as a `Val`. -/
def optStrToVal : Option String → Val
  | none => .null
  | some s => .str s

/-- The search-result dict built for one vector-query hit. -/
def backendHitToVal (h : BackendHit) : Val :=
  .obj [("content", .str h.doc), ("metadata", chromaMetaToVal h.meta),
    ("distance", optNumToVal h.distance), ("id", optStrToVal h.id)]

/-- The memory agent's stop-word set for the substring-scan fallback. -/
def memStopWords : List String :=
  ["the", "a", "an", "and", "or", "but", "in", "on", "at", "to", "for", "of",
   "with", "by", "about", "is", "are", "what", "find", "search"]

/-- Query tokens for the substring-scan fallback (no stop words, length > 2). -/
def memQueryTokens (query : String) : List String :=
  (splitWs (lowerStr query)).filter
    (fun w => (!(memStopWords.contains w)) && decide (strLen w > 2))

/-- The exception-fallback substring token scan over the first 100 stored
documents, with the topic and keyword filters (before the `[:n_results]` cut). -/
def tokenScanHits (docs : List DocEntry) (query : String) (topicFilter : Option Val)
    (keywordsFilter : List String) : List Val :=
  let qTokens := memQueryTokens query
  ((docs.take 100).filter (fun d =>
      (if qTokens.isEmpty then false else qTokens.any (fun t => isSubstrOf t (lowerStr d.doc)))
      && matchTopicF topicFilter d.meta.topic
      && matchKeywordsF keywordsFilter d.meta.keywords_csv)).map
    (fun d => .obj [("content", .str d.doc), ("metadata", chromaMetaToVal d.meta),
      ("distance", .null), ("id", .str d.id)])

/-- The final literal fallback over the first 500 stored documents: the raw
lower-cased stripped query matches a document exactly or as a substring.  No
topic or keyword filters are applied here. -/
def literalScanHits (docs : List DocEntry) (query : String) : List Val :=
  let qLower := stripWsStr (lowerStr query)
  ((docs.take 500).filter (fun d =>
      (qLower = stripWsStr (lowerStr d.doc)) || isSubstrOf qLower (lowerStr d.doc))).map
    (fun d => .obj [("content", .str d.doc), ("metadata", chromaMetaToVal d.meta),
      ("distance", .null), ("id", .str d.id)])

/-- The collection `_search_memory` reads for a memory type (conversation for
`"conversation"`, knowledge otherwise). -/
def searchDocsOf (st : MemState) (meta : MMeta) : List DocEntry :=
  if meta.memory_type.getD "conversation" = "conversation" then st.convDocs else st.knowDocs

/-- The `search_results` list `_search_memory` ends up with: the vector hits
(filtered) when the backend returns any, the truncated token scan when the
backend raises, and the literal fallback whenever the results so far are empty. -/
def searchResultsList (st : MemState) (backend : Except Unit (List BackendHit))
    (query : String) (meta : MMeta) : List Val :=
  let nResults := meta.limit.getD 3
  let docs := searchDocsOf st meta
  let tier12 : List Val :=
    match backend with
    | .ok hits =>
      if hits.isEmpty then []
      else (hits.filter (fun h =>
          matchTopicF meta.topic h.meta.topic
          && matchKeywordsF meta.keywords h.meta.keywords_csv)).map backendHitToVal
    | .error _ => (tokenScanHits docs query meta.topic meta.keywords).take nResults
  if tier12.isEmpty then literalScanHits docs query else tier12

/-- The `_search_memory` handler.  The Chroma vector query is external I/O and is
passed as `backend`: `.error` models the backend raising, `.ok hits` models it
returning the given hits. -/
def searchMemory (st : MemState) (backend : Except Unit (List BackendHit))
    (query : String) (meta : MMeta) : Val :=
  let results := searchResultsList st backend query meta
  .obj [("action", .str "searched"), ("query", .str query),
    ("results", .arr results), ("count", .num (results.length : ℚ))]

/-- Which handler `process_task` dispatches a message to. -/
inductive MemAction where
  | storeAct
  | retrieveAct
  | searchAct
  | statusAct
deriving DecidableEq

/-- The `_general_memory_query` routing (substring checks on the lower-cased
content). -/
def generalAction (c : String) : MemAction :=
  if isSubstrOf "what did" c || isSubstrOf "earlier" c || isSubstrOf "before" c then
    .searchAct
  else if isSubstrOf "remember" c then .storeAct
  else .statusAct

/-- The `process_task` dispatch: whole-word keyword routing on the lower-cased
content, falling back to the general handler. -/
def processTaskAction (content : String) : MemAction :=
  let c := lowerStr content
  if hasWord c "store" || hasWord c "save" then .storeAct
  else if hasWord c "retrieve" || hasWord c "get" then .retrieveAct
  else if hasWord c "search" || hasWord c "find" then .searchAct
  else generalAction c

/-- State after the memory agent processes a task: only the store handler (also
when reached through the general handler) mutates the state; search, retrieve
and status leave it unchanged, as does the caught store exception. -/
def memoryTaskState (st : MemState) (content sender : String) (meta : MMeta)
    (ts : String) : MemState :=
  match processTaskAction content with
  | .storeAct => (storeMemory st content sender meta ts).1
  | _ => st

/-- The conversation metadata file's length: its records plus the
`__agent_state__` aggregate key when present. -/
def convFileLen (st : MemState) : ℕ :=
  st.convMeta.length + (if st.agentState.isSome then 1 else 0)

/-- The two counters of `get_memory_stats` (the other fields are constants). -/
structure MemoryStats where
  conversation_count : ℕ
  knowledge_count : ℕ

/-- The `get_memory_stats` counters: lengths of the two metadata mirrors. -/
def getMemoryStats (st : MemState) : MemoryStats :=
  ⟨convFileLen st, st.knowMeta.length⟩

/-! ## Coordinator (`coordinator/coordinator_agent.py`) -/

/-- The coordinator's stop-word set for memory-context keyword extraction. -/
def coordStopWords : List String :=
  ["the", "a", "an", "and", "or", "but", "in", "on", "at", "to", "for", "of", "with",
   "by", "about", "is", "are", "what", "find", "search", "retrieve", "get"]

/-- The coordinator's meaningful words: lower-cased words that are not stop words
and longer than 2 characters, with surrounding punctuation stripped. -/
def meaningfulWords (query : String) : List String :=
  ((splitWs (lowerStr query)).filter
    (fun w => (!(coordStopWords.contains w)) && decide (strLen w > 2))).map
    (stripChars punctChars)

/-- The content of the memory-context search message: the query followed by up
to 10 meaningful words. -/
def memoryContextContent (query : String) : String :=
  query ++ " " ++ joinWith " " ((meaningfulWords query).take 10)

/-- The metadata of the memory-context search message. -/
def memoryContextMeta (query : String) : MMeta :=
  { memory_type := some "conversation", limit := some 5,
    keywords := (meaningfulWords query).take 8 }

/-- The normalized memory context `{results, count, best_distance}`. -/
structure NormCtx where
  results : Val
  count : ℕ
  best_distance : Option ℚ

/-- Python `a or b`. -/
def pyOr (a b : Val) : Val := if a.isTruthy then a else b

/-- Normalization of one `memories` entry into a search-hit shape; `none` models
the `AttributeError` when the entry is not a dict. -/
def memoryHitOfEntry? (m : Val) : Option Val :=
  match m with
  | .obj kvs =>
    some (.obj [
      ("content", pyOr ((lookupKey kvs "content").getD .null)
        (pyOr ((lookupKey kvs "data").getD .null) ((lookupKey kvs "content").getD (.str "")))),
      ("metadata", .obj (kvs.filter (fun kv => kv.1 ≠ "content" && kv.1 ≠ "data"))),
      ("distance", (lookupKey kvs "distance").getD .null),
      ("id", (lookupKey kvs "id").getD .null)])
  | _ => none

/-- The value that `_normalize_memory_context` binds to `results`; `none` models
an exception while normalizing a `memories` list. -/
def resultsValue? (mc : Val) : Option Val :=
  match mc with
  | .obj kvs =>
    match lookupKey kvs "results" with
    | some (.arr xs) => some (.arr xs)
    | _ =>
      match lookupKey kvs "memories" with
      | some (.arr ms) => (ms.mapM memoryHitOfEntry?).map .arr
      | some (.obj mkvs) => some (.obj mkvs)
      | _ =>
        match lookupKey kvs "action" with
        | some (.str a) =>
          if a = "searched" ∨ a = "retrieved" then
            match lookupKey kvs "results" with
            | some r => some r
            | none =>
              match lookupKey kvs "memories" with
              | some r => some r
              | none => some (.arr [])
          else some (.arr [])
        | some _ => some (.arr [])
        | none => some (.arr [])
  | _ => some (.arr [])

/-- One step of the best-distance loop: the float value of a dict element's
non-null `distance`, skipping anything unconvertible. -/
def elemDistance? (r : Val) : Option ℚ :=
  match r with
  | .obj kvs =>
    match (lookupKey kvs "distance").getD .null with
    | .null => none
    | d => pyFloat? d
  | _ => none

/-- The best-distance loop of `_normalize_memory_context`. -/
def bestDistLoop (elems : List Val) : Option ℚ :=
  elems.foldl (fun acc r =>
    match elemDistance? r with
    | none => acc
    | some q =>
      match acc with
      | none => some q
      | some b => if q < b then some q else acc) none

/-- The coordinator's `_normalize_memory_context`; `none` models an uncaught
exception (iterating or taking `len` of an unsized `results` value). -/
def normalizeMemoryContext (mc : Val) : Option NormCtx :=
  if ¬ mc.isTruthy then some ⟨.arr [], 0, none⟩
  else
    match resultsValue? mc with
    | none => none
    | some res =>
      match pyElems? res, pyLen? res with
      | some elems, some n => some ⟨res, n, bestDistLoop elems⟩
      | _, _ => none

/-- The `results` value `_execute_task_plan` reads from the memory context. -/
def memResultsOf (mctx : Val) : Val :=
  match mctx with
  | .obj kvs => (lookupKey kvs "results").getD (.arr [])
  | _ => .arr []

/-- The `best_distance` value `_execute_task_plan` reads from the memory context. -/
def bdValOf (mctx : Val) : Val :=
  match mctx with
  | .obj kvs => (lookupKey kvs "best_distance").getD .null
  | _ => .null

/-- Numeric value of a `best_distance` entry for comparison against 0.8; `none`
models the `TypeError` of comparing a non-number with a float. -/
def bdNum? : Val → Option ℚ
  | .null => none
  | .num q => some q
  | .bool b => some (if b then 1 else 0)
  | _ => none

/-- The `best_distance is not None and best_distance <= 0.8` test; `none` models
the `TypeError` on uncomparable values. -/
def reuseDist? (bd : Val) : Option Bool :=
  match bd with
  | .null => some false
  | .num q => some (decide (q ≤ 4/5))
  | .bool b => some (decide ((if b then (1 : ℚ) else 0) ≤ 4/5))
  | _ => none

/-- Confidence of the second memory trace:
`0.6 if best_distance is None else max(0.1, 1.0 - float(best_distance))`;
`none` models `float(...)` raising. -/
def trace2Conf? (bd : Val) : Option ℚ :=
  match bd with
  | .null => some (3/5)
  | d => (pyFloat? d).map (fun f => max (1/10) (1 - f))

/-- The first, unconditional memory trace appended by `_execute_task_plan`. -/
def memoryTrace1 (memResults : Val) (n : ℕ) (bd : Val) (skip : Bool) : TaskResult :=
  { agent_id := "memory_agent", success := true,
    data := .obj [("results", memResults), ("count", .num (n : ℚ)), ("best_distance", bd),
      ("used", .bool skip), ("consulted", .bool true)],
    confidence := if n > 0 then 3/5 else 3/10, execution_time := 0 }

/-- The second memory trace, appended when any hits exist. -/
def memoryTrace2 (memResults : Val) (n : ℕ) (bd : Val) (conf : ℚ) : TaskResult :=
  { agent_id := "memory_agent", success := true,
    data := .obj [("results", memResults), ("count", .num (n : ℚ)), ("best_distance", bd)],
    confidence := conf, execution_time := 0 }

/-- The synthetic research result substituted for a skipped research step. -/
def syntheticResearch (memResults : Val) (bd : Val) (conf : ℚ) : TaskResult :=
  { agent_id := "research_agent", success := true,
    data := .obj [("research_results", .obj [("source", .str "memory"), ("hits", memResults),
      ("best_distance", bd), ("reused", .bool true)])],
    confidence := conf, execution_time := 0 }

/-- Outcome of `_execute_task_plan`: the appended results and how many times the
research worker was actually invoked. -/
structure ExecOutcome where
  results : List TaskResult
  researchCalls : ℕ

/-- One step of the plan-execution loop (the worker results are oracles). -/
def execStep (skip : Bool) (synthetic researchR analysisR memoryR : TaskResult)
    (acc : List TaskResult × ℕ) (s : String) : List TaskResult × ℕ :=
  if s = "research" then
    if skip then (acc.1 ++ [synthetic], acc.2)
    else (acc.1 ++ [researchR], acc.2 + 1)
  else if s = "analysis" then (acc.1 ++ [analysisR], acc.2)
  else if s = "memory_retrieval" then (acc.1 ++ [memoryR], acc.2)
  else acc

/-- The coordinator's `_execute_task_plan`.  `order` is the plan's
`execution_order`; `researchR`, `analysisR` and `memoryR` are the results the
three workers would return (the running `accumulated_data` only feeds those
workers, so with the results given as oracles it has no further observable
effect).  `none` models an uncaught exception. -/
def executeTaskPlan (order : List String) (mctx : Val)
    (researchR analysisR memoryR : TaskResult) : Option ExecOutcome := do
  let memResults := memResultsOf mctx
  let n ← pyLen? memResults
  let bd := bdValOf mctx
  let reuseDist ← reuseDist? bd
  let skip := reuseDist || decide (n ≥ 2)
  let t1 := memoryTrace1 memResults n bd skip
  let t2? ← (if n > 0 then (trace2Conf? bd).map (fun c => some (memoryTrace2 memResults n bd c))
             else some none)
  let memTraceConf := match t2? with | some t2 => t2.confidence | none => t1.confidence
  let synthConf := if n > 0 then memTraceConf else 1/2
  let synthetic := syntheticResearch memResults bd synthConf
  let init : List TaskResult × ℕ :=
    ([t1] ++ (match t2? with | some t2 => [t2] | none => []), 0)
  let fin := order.foldl (execStep skip synthetic researchR analysisR memoryR) init
  pure ⟨fin.1, fin.2⟩

/-- One entry of the response's `agent_results` map. -/
structure AgentEntry where
  data : Val
  confidence : ℚ
  execution_time : ℚ

/-- One entry of the response's `execution_trace`. -/
inductive TraceEntry where
  | ok (agent : String) (execution_time : ℚ)
  | fail (agent : String) (error : Option String)
deriving DecidableEq

/-- The agent of a trace entry. -/
def TraceEntry.agent : TraceEntry → String
  | .ok a _ => a
  | .fail a _ => a

/-- The result-collection loop of `_synthesize_response`, carrying the
`agent_results` map, the confidence total, the success count and the trace. -/
def synthLoop : List (String × AgentEntry) → ℚ → ℕ → List TraceEntry → List TaskResult →
    List (String × AgentEntry) × ℚ × ℕ × List TraceEntry
  | ar, tot, cnt, tr, [] => (ar, tot, cnt, tr)
  | ar, tot, cnt, tr, r :: rest =>
    if r.success then
      synthLoop (aupsert ar r.agent_id ⟨r.data, r.confidence, r.execution_time⟩)
        (tot + r.confidence) (cnt + 1) (tr ++ [.ok r.agent_id r.execution_time]) rest
    else synthLoop ar tot cnt (tr ++ [.fail r.agent_id r.error]) rest

/-- Python `sep.join(v)` over an iterable of strings; `none` models the
`TypeError` when an element is not a string (or `v` is not iterable). -/
def pyJoin? (sep : String) (v : Val) : Option String :=
  match v with
  | .arr xs =>
    (xs.mapM (fun e => match e with | Val.str s => some s | _ => none)).map (joinWith sep)
  | .obj kvs => some (joinWith sep (kvs.map (fun kv => kv.1)))
  | .str s => some (joinWith sep (s.toList.map (fun c => c.toString)))
  | _ => none

/-- The knowledge-limitation short circuit of `_generate_detailed_answer`:
`some (some v)` is an early return with `v`, `some none` means fall through to
the main body, `none` models an exception. -/
def limitationShortCircuit? (ar : List (String × AgentEntry)) : Option (Option Val) :=
  match alookup ar "research_agent" with
  | none => some none
  | some entry =>
    match entry.data with
    | .obj kvs =>
      if ((lookupKey kvs "limitation_detected").getD .null).isTruthy then
        match lookupKey kvs "research_results" with
        | none => none
        | some (.obj rrkvs) =>
          match (lookupKey rrkvs "knowledge_limitation").getD (.obj []) with
          | .obj likvs =>
            some (some ((lookupKey likvs "message").getD
              (.str "I don't have information about this topic in my knowledge base.")))
          | _ => none
        | some _ => none
      else some none
    | _ => none

/-- A `"key" in data and data["key"]: append label + ", ".join(data["key"])`
block of the research section. -/
def fieldJoin? (d : List (String × Val)) (key label : String) : Option (List String) :=
  match lookupKey d key with
  | some v => if v.isTruthy then (pyJoin? ", " v).map (fun j => [label ++ j]) else some []
  | none => some []

/-- The `efficiency` block of the research section. -/
def efficiencyPart? (d : List (String × Val)) : Option (List String) :=
  match lookupKey d "efficiency" with
  | some (.obj e) =>
    some ["Efficiency considerations: " ++
      joinWith ", " (e.map (fun kv => kv.1 ++ ": " ++ pyStr kv.2))]
  | _ => some []

/-- The per-topic body of the research section. -/
def topicBody? (data : Val) : Option (List String) :=
  match data with
  | .obj d => do
    let p1 := match lookupKey d "description" with
      | some v => [pyStr v]
      | none => []
    let p2 ← fieldJoin? d "types" "The main types include: "
    let p3 ← fieldJoin? d "applications" "These are commonly used for: "
    let p4 ← fieldJoin? d "algorithms" "Key algorithms include: "
    let p5 ← fieldJoin? d "optimization" "Common optimization techniques: "
    let p6 ← fieldJoin? d "architectures" "Popular architectures: "
    let p7 ← efficiencyPart? d
    let p8 := match lookupKey d "tradeoffs" with
      | some v => ["Key tradeoffs: " ++ pyStr v]
      | none => []
    pure (p1 ++ p2 ++ p3 ++ p4 ++ p5 ++ p6 ++ p7 ++ p8)
  | other => some [pyStr other]

/-- One reused-memory hit's line of the research section. -/
def memoryHitLine? (hit : Val) : Option String :=
  match hit with
  | .obj h => do
    let contentV := (lookupKey h "content").getD (.str "")
    let snippet ← match contentV with
      | .str s => some ((splitOnCharStr s '\n').headD "")
      | _ => none
    let topicV ← match (lookupKey h "metadata").getD (.obj []) with
      | .obj mkvs => some (pyOr ((lookupKey mkvs "topic").getD .null) (.str "Previous Context"))
      | _ => none
    pure ("\n**" ++ pyStr topicV ++ ":** " ++ takeStr snippet 240)
  | _ => none

/-- The research-findings section of `_generate_detailed_answer`. -/
def researchSection? (ar : List (String × AgentEntry)) : Option (List String) :=
  match alookup ar "research_agent" with
  | none => some []
  | some entry =>
    match entry.data with
    | .obj kvs =>
      match lookupKey kvs "research_results" with
      | none => some []
      | some results =>
        if ¬ results.isTruthy then some []
        else do
          let base := ["Based on my research, I found the following information:"]
          match results with
          | .obj topics =>
            let parts ← topics.foldlM (fun acc tv => do
              let topicName := titleStr (replaceStr tv.1 '_' " ")
              let body ← topicBody? tv.2
              pure (acc ++ ["\n**" ++ topicName ++ ":**"] ++ body)) ([] : List String)
            pure (base ++ parts)
          | .arr hits =>
            let parts ← (hits.take 3).foldlM (fun acc hit => do
              let p ← memoryHitLine? hit
              pure (acc ++ [p])) ([] : List String)
            pure (base ++ parts)
          | _ => pure base
    | _ => none

/-- A `"key" in analysis: append label + str(analysis[key])` block of the
analysis section. -/
def strField? (analysis : Val) (key label : String) : Option (List String) := do
  let has ← pyContains? analysis key
  if has then
    match analysis with
    | .obj kvs =>
      match lookupKey kvs key with
      | some v => some [label ++ pyStr v]
      | none => none
    | _ => none
  else some []

/-- The `insights` block of the analysis section. -/
def insightsPart? (analysis : Val) : Option (List String) := do
  let has ← pyContains? analysis "insights"
  if has then
    match analysis with
    | .obj kvs =>
      match lookupKey kvs "insights" with
      | some (.arr xs) => (pyJoin? "; " (.arr xs)).map (fun j => ["Insights: " ++ j])
      | some _ => some []
      | none => none
    | _ => none
  else some []

/-- The `metrics` block of the analysis section. -/
def metricsPart? (analysis : Val) : Option (List String) := do
  let has ← pyContains? analysis "metrics"
  if has then
    match analysis with
    | .obj kvs =>
      match lookupKey kvs "metrics" with
      | some (.obj ms) =>
        some ["Metrics: " ++ joinWith ", " (ms.map (fun kv => kv.1 ++ ": " ++ pyStr kv.2))]
      | some _ => some []
      | none => none
    | _ => none
  else some []

/-- The analysis section of `_generate_detailed_answer`. -/
def analysisSection? (ar : List (String × AgentEntry)) : Option (List String) :=
  match alookup ar "analysis_agent" with
  | none => some []
  | some entry => do
    let has ← pyContains? entry.data "analysis"
    if has then
      match entry.data with
      | .obj adkvs =>
        match lookupKey adkvs "analysis" with
        | some analysis => do
          let p1 ← strField? analysis "analysis_type" "Analysis type: "
          let p2 ← strField? analysis "findings" "Key findings: "
          let p3 ← insightsPart? analysis
          let p4 ← strField? analysis "recommendation" "Recommendation: "
          let p5 ← metricsPart? analysis
          pure (["\n**Analysis:**"] ++ p1 ++ p2 ++ p3 ++ p4 ++ p5)
        | none => none
      | _ => none
    else pure []

/-- The memory-context section of `_generate_detailed_answer`. -/
def memorySection? (ar : List (String × AgentEntry)) : Option (List String) :=
  match alookup ar "memory_agent" with
  | none => some []
  | some entry => do
    let has ← pyContains? entry.data "results"
    if has then
      match entry.data with
      | .obj kvs =>
        match lookupKey kvs "results" with
        | some v =>
          if v.isTruthy then
            some ["\n**Previous Context:**",
              "I found relevant information from our previous conversations that relates to your question."]
          else some []
        | none => none
      | _ => none
    else some []

/-- The main body of `_generate_detailed_answer` (after the limitation check). -/
def mainAnswer? (ar : List (String × AgentEntry)) : Option Val := do
  let r ← researchSection? ar
  let a ← analysisSection? ar
  let m ← memorySection? ar
  let parts := r ++ a ++ m
  if parts.isEmpty then
    pure (.str "I processed your query but couldn't find specific information to answer it. Please try rephrasing your question or asking about a different topic.")
  else pure (.str (joinWith "\n" parts))

/-- The coordinator's `_generate_detailed_answer`; `none` models an uncaught
exception.  (The `query` parameter is unused by the source's body too.) -/
def generateDetailedAnswer (_query : String) (ar : List (String × AgentEntry)) :
    Option Val := do
  match ← limitationShortCircuit? ar with
  | some v => pure v
  | none => mainAnswer? ar

/-- The response dict built by `_synthesize_response`. -/
structure SynthResponse where
  query : String
  success : Bool
  agent_results : List (String × AgentEntry)
  synthesized_answer : Option Val
  confidence : ℚ
  execution_trace : List TraceEntry

/-- The coordinator's `_synthesize_response`. -/
def synthesizeResponse (query : String) (results : List TaskResult) : SynthResponse :=
  let acc := synthLoop [] 0 0 [] results
  { query := query, success := results.all (fun r => r.success),
    agent_results := acc.1,
    synthesized_answer := generateDetailedAnswer query acc.1,
    confidence := if acc.2.2.1 > 0 then acc.2.1 / (acc.2.2.1 : ℚ) else 0,
    execution_trace := acc.2.2.2 }

/-- The message metadata `_store_interaction` builds (the unread `raw_answer`
key aside, see `MMeta`). -/
def storeInteractionMeta (query answer : String) (agentsUsed : List String)
    (confidence : ℚ) : MMeta :=
  { data := .obj [("query", .str query), ("response", .str answer),
      ("agents_used", .arr (agentsUsed.map .str)), ("confidence", .num confidence)],
    memory_type := some "conversation", source := some "coordinator" }

/-- The memory state after `_store_interaction` sends its message (content is
the bare query, sender is the coordinator) to the memory agent. -/
def storeInteractionState (st : MemState) (query answer : String)
    (agentsUsed : List String) (confidence : ℚ) (ts : String) : MemState :=
  memoryTaskState st query "coordinator"
    (storeInteractionMeta query answer agentsUsed confidence) ts

/-- Whether a value is a Python list (the data model's notion of a sequence). -/
def Val.isArr : Val → Bool
  | .arr _ => true
  | _ => false

/-- Whether a value is a Python dict. -/
def Val.isObj : Val → Bool
  | .obj _ => true
  | _ => false

/-! ## Helper lemmas -/

theorem alookup_map_overwrite {α : Type} (tl : List (String × α)) (k : String) (v : α)
    (h : (alookup tl k).isSome) :
    alookup (tl.map (fun kv => if kv.1 = k then (k, v) else kv)) k = some v := by
  induction tl with
  | nil => simp [alookup] at h
  | cons hd tl ih =>
    simp only [List.map_cons]
    by_cases hk : hd.1 = k
    · rw [if_pos hk]
      simp [alookup]
    · rw [if_neg hk]
      have h2 : (alookup tl k).isSome := by
        obtain ⟨k1, v1⟩ := hd
        simpa [alookup, hk] using h
      obtain ⟨k1, v1⟩ := hd
      simp only [alookup]
      rw [if_neg hk]
      exact ih h2

theorem alookup_append_single {α : Type} (l : List (String × α)) (k : String) (v : α)
    (h : alookup l k = none) :
    alookup (l ++ [(k, v)]) k = some v := by
  induction l with
  | nil => simp [alookup]
  | cons hd tl ih =>
    obtain ⟨k1, v1⟩ := hd
    by_cases hk : k1 = k
    · simp [alookup, hk] at h
    · simp only [alookup, List.cons_append, if_neg hk] at h ⊢
      exact ih h

theorem alookup_aupsert {α : Type} (l : List (String × α)) (k : String) (v : α) :
    alookup (aupsert l k v) k = some v := by
  unfold aupsert
  by_cases hs : (alookup l k).isSome
  · rw [if_pos hs]; exact alookup_map_overwrite l k v hs
  · rw [if_neg hs]
    exact alookup_append_single l k v (Option.not_isSome_iff_eq_none.mp hs)

theorem alookup_map_overwrite_ne {α : Type} (tl : List (String × α)) (k k' : String) (v : α)
    (h : k' ≠ k) :
    alookup (tl.map (fun kv => if kv.1 = k then (k, v) else kv)) k' = alookup tl k' := by
  induction tl with
  | nil => simp [alookup]
  | cons hd tl ih =>
    obtain ⟨k1, v1⟩ := hd
    simp only [List.map_cons]
    by_cases hk : (k1, v1).1 = k
    · rw [if_pos hk]
      simp only at hk
      subst hk
      have hkk : ¬ (k1 = k') := fun e => h e.symm
      simp only [alookup, if_neg hkk]
      exact ih
    · rw [if_neg hk]
      simp only at hk
      simp only [alookup]
      by_cases hh : k1 = k'
      · simp [hh]
      · rw [if_neg hh, if_neg hh]
        exact ih

theorem alookup_append_single_ne {α : Type} (l : List (String × α)) (k k' : String) (v : α)
    (h : k' ≠ k) : alookup (l ++ [(k, v)]) k' = alookup l k' := by
  induction l with
  | nil =>
    have : ¬ (k = k') := fun e => h e.symm
    simp [alookup, this]
  | cons hd tl ih =>
    obtain ⟨k1, v1⟩ := hd
    simp only [alookup, List.cons_append]
    by_cases hh : k1 = k'
    · simp [hh]
    · rw [if_neg hh, if_neg hh]
      exact ih

theorem alookup_aupsert_ne {α : Type} (l : List (String × α)) (k k' : String) (v : α)
    (h : k' ≠ k) : alookup (aupsert l k v) k' = alookup l k' := by
  unfold aupsert
  by_cases hs : (alookup l k).isSome
  · rw [if_pos hs]; exact alookup_map_overwrite_ne l k k' v h
  · rw [if_neg hs]; exact alookup_append_single_ne l k k' v h

theorem synthLoop_trace (rs : List TaskResult) :
    ∀ ar tot cnt tr, (synthLoop ar tot cnt tr rs).2.2.2 =
      tr ++ rs.map (fun r => if r.success then TraceEntry.ok r.agent_id r.execution_time
        else TraceEntry.fail r.agent_id r.error) := by
  induction rs with
  | nil => intro ar tot cnt tr; simp [synthLoop]
  | cons r rest ih =>
    intro ar tot cnt tr
    by_cases hs : r.success
    · simp [synthLoop, hs, ih, List.append_assoc]
    · simp [synthLoop, hs, ih, List.append_assoc]

theorem synthLoop_cnt (rs : List TaskResult) :
    ∀ ar tot cnt tr, (synthLoop ar tot cnt tr rs).2.2.1 =
      cnt + (rs.filter (fun r => r.success)).length := by
  induction rs with
  | nil => intro ar tot cnt tr; simp [synthLoop]
  | cons r rest ih =>
    intro ar tot cnt tr
    by_cases hs : r.success
    · simp [synthLoop, hs, ih]; omega
    · simp [synthLoop, hs, ih]

theorem synthLoop_tot (rs : List TaskResult) :
    ∀ ar tot cnt tr, (synthLoop ar tot cnt tr rs).2.1 =
      tot + ((rs.filter (fun r => r.success)).map (fun r => r.confidence)).sum := by
  induction rs with
  | nil => intro ar tot cnt tr; simp [synthLoop]
  | cons r rest ih =>
    intro ar tot cnt tr
    by_cases hs : r.success
    · simp [synthLoop, hs, ih]; ring
    · simp [synthLoop, hs, ih]

theorem synthLoop_lookup_of_no_success (rs : List TaskResult) (k : String) :
    ∀ ar tot cnt tr, (∀ r ∈ rs, r.success = true → r.agent_id ≠ k) →
      alookup (synthLoop ar tot cnt tr rs).1 k = alookup ar k := by
  induction rs with
  | nil => intro ar tot cnt tr _; simp [synthLoop]
  | cons r rest ih =>
    intro ar tot cnt tr h
    by_cases hs : r.success
    · have hne : r.agent_id ≠ k := h r (by simp) hs
      simp only [synthLoop, hs, if_true]
      rw [ih _ _ _ _ (fun x hx => h x (by simp [hx]))]
      exact alookup_aupsert_ne ar r.agent_id k _ (fun e => hne e.symm)
    · simp only [synthLoop, hs, if_false]
      exact ih _ _ _ _ (fun x hx => h x (by simp [hx]))

theorem conv_id_ne_empty (ts : String) : ("conversation_" ++ ts) ≠ "" := by
  obtain ⟨l⟩ := ts
  intro h
  have h2 : ("conversation_".data ++ l) = [] := congrArg String.data h
  simp at h2

theorem foldl_min_le_init (l : List ℚ) : ∀ b : ℚ, l.foldl min b ≤ b := by
  induction l with
  | nil => intro b; simp
  | cons q rest ih =>
    intro b
    calc rest.foldl min (min b q) ≤ min b q := ih (min b q)
      _ ≤ b := min_le_left b q

theorem foldl_min_le_mem (l : List ℚ) : ∀ b p, p ∈ l → l.foldl min b ≤ p := by
  induction l with
  | nil => intro b p hp; simp at hp
  | cons q rest ih =>
    intro b p hp
    rcases List.mem_cons.mp hp with h | h
    · subst h
      calc rest.foldl min (min b p) ≤ min b p := foldl_min_le_init rest (min b p)
        _ ≤ p := min_le_right b p
    · exact ih (min b q) p h

theorem foldl_min_mem (l : List ℚ) : ∀ b, l.foldl min b = b ∨ l.foldl min b ∈ l := by
  induction l with
  | nil => intro b; left; rfl
  | cons q rest ih =>
    intro b
    rcases ih (min b q) with h | h
    · rcases min_choice b q with hm | hm
      · left; rw [List.foldl_cons, h, hm]
      · right; rw [List.foldl_cons, h, hm]; exact List.mem_cons_self q rest
    · right; rw [List.foldl_cons]; exact List.mem_cons_of_mem q h

theorem bestDistLoop_some (elems : List Val) : ∀ b : ℚ,
    elems.foldl (fun acc r =>
      match elemDistance? r with
      | none => acc
      | some q =>
        match acc with
        | none => some q
        | some b => if q < b then some q else acc) (some b) =
    some ((elems.filterMap elemDistance?).foldl min b) := by
  induction elems with
  | nil => intro b; rfl
  | cons r rest ih =>
    intro b
    rcases hd : elemDistance? r with _ | q
    · simp only [List.foldl_cons, hd, List.filterMap_cons_none hd]
      exact ih b
    · have hmin : (if q < b then some q else some b) = some (min b q) := by
        rcases lt_or_ge q b with hlt | hge
        · rw [if_pos hlt, min_eq_right (le_of_lt hlt)]
        · rw [if_neg (not_lt.mpr hge), min_eq_left hge]
      simp only [List.foldl_cons, hd, List.filterMap_cons_some hd]
      rw [hmin]
      exact ih (min b q)

theorem bestDistLoop_eq (elems : List Val) :
    bestDistLoop elems =
      match elems.filterMap elemDistance? with
      | [] => none
      | q :: qs => some (qs.foldl min q) := by
  unfold bestDistLoop
  induction elems with
  | nil => rfl
  | cons r rest ih =>
    rcases hd : elemDistance? r with _ | q
    · simp only [List.foldl_cons, hd, List.filterMap_cons_none hd]
      exact ih
    · simp only [List.foldl_cons, hd, List.filterMap_cons_some hd]
      exact bestDistLoop_some rest q

theorem execStep_foldl_mem (skip : Bool) (synthetic researchR analysisR memoryR : TaskResult)
    (order : List String) :
    ∀ (acc : List TaskResult × ℕ) (r : TaskResult),
      r ∈ (order.foldl (execStep skip synthetic researchR analysisR memoryR) acc).1 →
      r ∈ acc.1 ∨
      (skip = true ∧ r = synthetic ∧ "research" ∈ order) ∨
      (skip = false ∧ r = researchR ∧ "research" ∈ order) ∨
      (r = analysisR ∧ "analysis" ∈ order) ∨
      (r = memoryR ∧ "memory_retrieval" ∈ order) := by
  induction order with
  | nil => intro acc r h; exact Or.inl h
  | cons s rest ih =>
    intro acc r h
    rw [List.foldl_cons] at h
    have step := ih (execStep skip synthetic researchR analysisR memoryR acc s) r h
    have hmem : ∀ x, x ∈ rest → x ∈ s :: rest := fun x hx => List.mem_cons_of_mem s hx
    rcases step with hacc | h1 | h2 | h3 | h4
    · unfold execStep at hacc
      by_cases hs1 : s = "research"
      · rw [if_pos hs1] at hacc
        by_cases hsk : skip
        · rw [if_pos hsk] at hacc
          rcases List.mem_append.mp hacc with h | h
          · exact Or.inl h
          · right; left
            exact ⟨hsk, List.mem_singleton.mp h, by rw [hs1] at *; exact List.mem_cons_self _ _⟩
        · rw [if_neg hsk] at hacc
          rcases List.mem_append.mp hacc with h | h
          · exact Or.inl h
          · right; right; left
            exact ⟨Bool.not_eq_true _ ▸ (by simpa using hsk), List.mem_singleton.mp h,
              by rw [hs1] at *; exact List.mem_cons_self _ _⟩
      · rw [if_neg hs1] at hacc
        by_cases hs2 : s = "analysis"
        · rw [if_pos hs2] at hacc
          rcases List.mem_append.mp hacc with h | h
          · exact Or.inl h
          · right; right; right; left
            exact ⟨List.mem_singleton.mp h, by rw [hs2] at *; exact List.mem_cons_self _ _⟩
        · rw [if_neg hs2] at hacc
          by_cases hs3 : s = "memory_retrieval"
          · rw [if_pos hs3] at hacc
            rcases List.mem_append.mp hacc with h | h
            · exact Or.inl h
            · right; right; right; right
              exact ⟨List.mem_singleton.mp h, by rw [hs3] at *; exact List.mem_cons_self _ _⟩
          · rw [if_neg hs3] at hacc
            exact Or.inl hacc
    · exact Or.inr (Or.inl ⟨h1.1, h1.2.1, hmem _ h1.2.2⟩)
    · exact Or.inr (Or.inr (Or.inl ⟨h2.1, h2.2.1, hmem _ h2.2.2⟩))
    · exact Or.inr (Or.inr (Or.inr (Or.inl ⟨h3.1, hmem _ h3.2⟩)))
    · exact Or.inr (Or.inr (Or.inr (Or.inr ⟨h4.1, hmem _ h4.2⟩)))

theorem exec_fold_research_entries (skip : Bool)
    (synthetic researchR analysisR memoryR : TaskResult)
    (order : List String) (init : List TaskResult)
    (hinit : ∀ t ∈ init, t.agent_id = "memory_agent")
    (haid : analysisR.agent_id = "analysis_agent")
    (hmid : memoryR.agent_id = "memory_agent") :
    (skip = true →
      ∀ r ∈ (order.foldl (execStep skip synthetic researchR analysisR memoryR) (init, 0)).1,
        r.agent_id = "research_agent" → r = synthetic) ∧
    (skip = false →
      ∀ r ∈ (order.foldl (execStep skip synthetic researchR analysisR memoryR) (init, 0)).1,
        r.agent_id = "research_agent" → r = researchR) := by
  constructor
  · intro hsk r hr hrid
    rcases execStep_foldl_mem skip synthetic researchR analysisR memoryR order (init, 0) r hr with
      hi | h1 | h2 | h3 | h4
    · exact absurd (hrid ▸ hinit r hi) (by decide)
    · exact h1.2.1
    · rw [hsk] at h2; exact absurd h2.1 (by simp)
    · rw [h3.1] at hrid; rw [haid] at hrid; exact absurd hrid (by decide)
    · rw [h4.1] at hrid; rw [hmid] at hrid; exact absurd hrid (by decide)
  · intro hsk r hr hrid
    rcases execStep_foldl_mem skip synthetic researchR analysisR memoryR order (init, 0) r hr with
      hi | h1 | h2 | h3 | h4
    · exact absurd (hrid ▸ hinit r hi) (by decide)
    · rw [hsk] at h1; exact absurd h1.1 (by simp)
    · exact h2.2.1
    · rw [h3.1] at hrid; rw [haid] at hrid; exact absurd hrid (by decide)
    · rw [h4.1] at hrid; rw [hmid] at hrid; exact absurd hrid (by decide)

theorem reuseDist_iff (bd : Val) (rd : Bool) (hrd : reuseDist? bd = some rd) :
    rd = true ↔ (∃ q, bdNum? bd = some q ∧ q ≤ 4/5) := by
  cases bd with
  | null => simp only [reuseDist?, Option.some.injEq] at hrd; subst hrd; simp [bdNum?]
  | num q => simp only [reuseDist?, Option.some.injEq] at hrd; subst hrd; simp [bdNum?]
  | bool b => simp only [reuseDist?, Option.some.injEq] at hrd; subst hrd; simp [bdNum?]
  | str s => simp [reuseDist?] at hrd
  | arr xs => simp [reuseDist?] at hrd
  | obj kvs => simp [reuseDist?] at hrd

theorem execStep_snd (skip : Bool) (synthetic researchR analysisR memoryR : TaskResult)
    (acc : List TaskResult × ℕ) (s : String) :
    (execStep skip synthetic researchR analysisR memoryR acc s).2 =
      acc.2 + (if s = "research" ∧ skip = false then 1 else 0) := by
  unfold execStep
  by_cases hs1 : s = "research"
  · by_cases hsk : skip
    · simp [hs1, hsk]
    · simp [hs1, hsk, Bool.not_eq_true]
  · by_cases hs2 : s = "analysis"
    · simp [hs1, hs2]
    · by_cases hs3 : s = "memory_retrieval"
      · simp [hs1, hs2, hs3]
      · simp [hs1, hs2, hs3]

theorem execStep_foldl_calls (skip : Bool) (synthetic researchR analysisR memoryR : TaskResult)
    (order : List String) :
    ∀ (acc : List TaskResult × ℕ),
      (order.foldl (execStep skip synthetic researchR analysisR memoryR) acc).2 =
        acc.2 + (if skip then 0 else (order.filter (fun s => s = "research")).length) := by
  induction order with
  | nil => intro acc; by_cases hsk : skip <;> simp [hsk]
  | cons s rest ih =>
    intro acc
    rw [List.foldl_cons, ih]
    rw [execStep_snd]
    by_cases hs1 : s = "research"
    · by_cases hsk : skip
      · simp [hs1, hsk]
      · simp only [hs1, hsk, List.filter_cons,
          if_pos (by simp : ("research" = "research" ∧ false = false))]
        simp
        omega
    · by_cases hsk : skip
      · simp [hs1, hsk, List.filter_cons]
      · simp [hs1, hsk, List.filter_cons]

theorem execStep_fst (skip : Bool) (synthetic researchR analysisR memoryR : TaskResult)
    (acc : List TaskResult × ℕ) (s : String) :
    (execStep skip synthetic researchR analysisR memoryR acc s).1 =
      acc.1 ++ (execStep skip synthetic researchR analysisR memoryR ([], 0) s).1 := by
  unfold execStep
  by_cases hs1 : s = "research"
  · by_cases hsk : skip
    · simp [hs1, hsk]
    · simp [hs1, hsk]
  · by_cases hs2 : s = "analysis"
    · simp [hs1, hs2]
    · by_cases hs3 : s = "memory_retrieval"
      · simp [hs1, hs2, hs3]
      · simp [hs1, hs2, hs3]

theorem execStep_foldl_acc (skip : Bool) (synthetic researchR analysisR memoryR : TaskResult)
    (order : List String) :
    ∀ (l : List TaskResult) (k : ℕ),
      (order.foldl (execStep skip synthetic researchR analysisR memoryR) (l, k)).1 =
        l ++ (order.foldl (execStep skip synthetic researchR analysisR memoryR) ([], k)).1 := by
  induction order with
  | nil => intro l k; simp
  | cons s rest ih =>
    intro l k
    rw [List.foldl_cons, List.foldl_cons]
    have e1 : execStep skip synthetic researchR analysisR memoryR (l, k) s =
        ((l, k).1 ++ (execStep skip synthetic researchR analysisR memoryR ([], 0) s).1,
         (execStep skip synthetic researchR analysisR memoryR (l, k) s).2) := by
      exact Prod.ext (execStep_fst skip synthetic researchR analysisR memoryR (l, k) s) rfl
    have e2 : execStep skip synthetic researchR analysisR memoryR ([], k) s =
        (([], k).1 ++ (execStep skip synthetic researchR analysisR memoryR ([], 0) s).1,
         (execStep skip synthetic researchR analysisR memoryR ([], k) s).2) := by
      exact Prod.ext (execStep_fst skip synthetic researchR analysisR memoryR ([], k) s) rfl
    rw [e1, e2]
    have hsnd : (execStep skip synthetic researchR analysisR memoryR (l, k) s).2 =
        (execStep skip synthetic researchR analysisR memoryR ([], k) s).2 := by
      rw [execStep_snd, execStep_snd]
    rw [hsnd]
    rw [ih, ih (([], k).1 ++ (execStep skip synthetic researchR analysisR memoryR ([], 0) s).1)]
    simp [List.append_assoc]

theorem traceEntryOf_agent (r : TaskResult) :
    (if r.success then TraceEntry.ok r.agent_id r.execution_time
     else TraceEntry.fail r.agent_id r.error).agent = r.agent_id := by
  by_cases h : r.success <;> simp [h, TraceEntry.agent]

theorem filter_trace_count (rs : List TaskResult) (k : String) :
    ((rs.map (fun r => if r.success then TraceEntry.ok r.agent_id r.execution_time
        else TraceEntry.fail r.agent_id r.error)).filter (fun te => te.agent = k)).length =
      (rs.filter (fun r => r.agent_id = k)).length := by
  induction rs with
  | nil => rfl
  | cons r rest ih =>
    simp only [List.map_cons, List.filter_cons, traceEntryOf_agent]
    by_cases h : r.agent_id = k
    · simp [h, ih]
    · simp [h, ih]

theorem synthLoop_cons_true (r : TaskResult) (h : r.success = true)
    (ar : List (String × AgentEntry)) (tot : ℚ) (cnt : ℕ) (tr : List TraceEntry)
    (rest : List TaskResult) :
    synthLoop ar tot cnt tr (r :: rest) =
      synthLoop (aupsert ar r.agent_id ⟨r.data, r.confidence, r.execution_time⟩)
        (tot + r.confidence) (cnt + 1) (tr ++ [.ok r.agent_id r.execution_time]) rest := by
  simp [synthLoop, h]

/-! ## Claim theorems -/

/-- C5: the synthesized response's `success` is the conjunction of every
executed result's success flag, its `confidence` is the arithmetic mean of the
confidences of the successful results (0 when none succeeded), and its
`execution_trace` has exactly one entry per result in order — the agent with
its execution time for a success, the agent with its error for a failure. -/
theorem C5_synthesize_response (query : String) (results : List TaskResult) :
    (synthesizeResponse query results).success = results.all (fun r => r.success) ∧
    (synthesizeResponse query results).confidence =
      (if (results.filter (fun r => r.success)).isEmpty then 0
       else ((results.filter (fun r => r.success)).map (fun r => r.confidence)).sum /
         ((results.filter (fun r => r.success)).length : ℚ)) ∧
    (synthesizeResponse query results).execution_trace =
      results.map (fun r => if r.success then TraceEntry.ok r.agent_id r.execution_time
        else TraceEntry.fail r.agent_id r.error) := by
  refine ⟨rfl, ?_, ?_⟩
  · show (if (synthLoop [] 0 0 [] results).2.2.1 > 0
        then (synthLoop [] 0 0 [] results).2.1 / ((synthLoop [] 0 0 [] results).2.2.1 : ℚ) else 0) = _
    rw [synthLoop_cnt, synthLoop_tot]
    simp only [Nat.zero_add, zero_add]
    rcases h : results.filter (fun r => r.success) with _ | ⟨a, rest⟩
    · rw [h]; simp
    · rw [h]; simp
  · show (synthLoop [] 0 0 [] results).2.2.2 = _
    rw [synthLoop_trace]
    rfl

/-- C9: a conversation store followed by a retrieve with the generated
memory id returns the stored record, whose `content` equals the original
message content. -/
theorem C9_round_trip (st : MemState) (content sender : String) (meta : MMeta) (ts : String)
    (hconv : meta.memory_type.getD "conversation" = "conversation") :
    ((storeMemory st content sender meta ts).2 =
      Except.ok (.obj [("action", .str "stored"),
        ("memory_id", .str ("conversation_" ++ ts)),
        ("memory_type", .str "conversation"),
        ("content_length", .num (strLen (content ++ " " ++ dumpJson meta.data)))])) ∧
    alookup ((storeMemory st content sender meta ts).1).convMeta ("conversation_" ++ ts) =
      some (convRecordOf content sender meta ts) ∧
    (convRecordOf content sender meta ts).content = content ∧
    retrieveMemory ((storeMemory st content sender meta ts).1)
        { memory_id := some ("conversation_" ++ ts), memory_type := some "conversation" } =
      .obj [("action", .str "retrieved"),
        ("memory", memRecordToVal (convRecordOf content sender meta ts))] ∧
    (∃ kvs, memRecordToVal (convRecordOf content sender meta ts) =
      .obj (("content", .str content) :: kvs)) := by
  have hm : (storeMemory st content sender meta ts).1.convMeta =
      aupsert st.convMeta ("conversation_" ++ ts) (convRecordOf content sender meta ts) := by
    unfold storeMemory
    rw [hconv]
    simp
  have hok : (storeMemory st content sender meta ts).2 =
      Except.ok (.obj [("action", .str "stored"),
        ("memory_id", .str ("conversation_" ++ ts)),
        ("memory_type", .str "conversation"),
        ("content_length", .num (strLen (content ++ " " ++ dumpJson meta.data)))]) := by
    unfold storeMemory
    rw [hconv]
    simp
  refine ⟨hok, ?_, rfl, ?_, ⟨_, rfl⟩⟩
  · rw [hm]
    exact alookup_aupsert _ _ _
  · unfold retrieveMemory
    simp only [Option.getD_some]
    rw [if_pos (conv_id_ne_empty ts)]
    simp only [if_true]
    rw [hm, alookup_aupsert]

/-- C8: a query with no direct topic match, no fuzzy match and no AI/ML domain
keyword yields a successful research result with confidence 0.9 carrying the
knowledge-limitation payload, and when that result reaches synthesis the
synthesized answer is exactly the limitation message, with nothing appended. -/
theorem C8_domain_limitation (content : String) (t : ℚ)
    (hdirect : directMatches (lowerStr content) = [])
    (hfuzzy : fuzzyMatches (lowerStr content) = [])
    (hdom : hasDomainKeyword (lowerStr content) = false) :
    (researchProcessTask content t).success = true ∧
    (researchProcessTask content t).confidence = 9/10 ∧
    (researchProcessTask content t).data = limitationData content (lowerStr content) ∧
    (∀ (q : String) (ar : List (String × AgentEntry)) (e : AgentEntry),
      alookup ar "research_agent" = some e →
      e.data = (researchProcessTask content t).data →
      generateDetailedAnswer q ar = some (.str (limitationMessage content))) := by
  have hr : researchProcessTask content t =
      { agent_id := "research_agent", success := true,
        data := limitationData content (lowerStr content), confidence := 9/10,
        execution_time := t } := by
    simp [researchProcessTask, hdirect, hfuzzy, hdom]
  refine ⟨by rw [hr], by rw [hr], by rw [hr], ?_⟩
  intro q ar e h1 h2
  rw [hr] at h2
  simp only at h2
  unfold generateDetailedAnswer
  have hsc : limitationShortCircuit? ar = some (some (.str (limitationMessage content))) := by
    simp [limitationShortCircuit?, h1, h2, limitationData, lookupKey, Val.isTruthy]
  rw [hsc]
  rfl

set_option maxRecDepth 100000 in
/-- C8 witness: the scenario query about the Paris weather, out of domain. -/
theorem C8_domain_limitation_witness :
    directMatches (lowerStr "What's the weather in Paris?") = [] ∧
    fuzzyMatches (lowerStr "What's the weather in Paris?") = [] ∧
    hasDomainKeyword (lowerStr "What's the weather in Paris?") = false ∧
    generateDetailedAnswer "What's the weather in Paris?"
        [("research_agent", ⟨(researchProcessTask "What's the weather in Paris?" (7/100)).data,
          9/10, 7/100⟩)] =
      some (.str (limitationMessage "What's the weather in Paris?")) :=
  ⟨rfl, rfl, rfl,
    (C8_domain_limitation "What's the weather in Paris?" (7/100) rfl rfl rfl).2.2.2
      "What's the weather in Paris?" _ _ rfl rfl⟩

/-- C9 witness: the round trip at a concrete store state and message. -/
theorem C9_round_trip_witness :
    (({ data := .obj [("note", .str "transformers")] } : MMeta).memory_type.getD
      "conversation" = "conversation") ∧
    retrieveMemory ((storeMemory MemState.empty "hello world message" "tester"
        { data := .obj [("note", .str "transformers")] } "1234").1)
        { memory_id := some ("conversation_" ++ "1234"), memory_type := some "conversation" } =
      .obj [("action", .str "retrieved"),
        ("memory", memRecordToVal (convRecordOf "hello world message" "tester"
          { data := .obj [("note", .str "transformers")] } "1234"))] :=
  ⟨rfl, (C9_round_trip MemState.empty "hello world message" "tester"
    { data := .obj [("note", .str "transformers")] } "1234" rfl).2.2.2.1⟩

/-- C4 amended: when the similarity backend raises, `_search_memory` falls back
to the stop-word-stripped substring token scan over the first 100 stored
documents with the same topic and keyword filters, truncated to the limit, and
only then to the literal raw-query match; but when the backend succeeds with
zero hits it goes directly to the literal match, skipping the token scan (the
correction the counterexample forces).  Every token-scan hit comes from a
stored document that contains some query token and passes both filters. -/
theorem C4_search_fallback (st : MemState) (query : String) (meta : MMeta)
    (e : Unit) (v : Val)
    (hv : v ∈ tokenScanHits (searchDocsOf st meta) query meta.topic meta.keywords) :
    searchResultsList st (.error e) query meta =
      (if ((tokenScanHits (searchDocsOf st meta) query meta.topic meta.keywords).take
          (meta.limit.getD 3)).isEmpty
       then literalScanHits (searchDocsOf st meta) query
       else (tokenScanHits (searchDocsOf st meta) query meta.topic meta.keywords).take
          (meta.limit.getD 3)) ∧
    searchResultsList st (.ok []) query meta = literalScanHits (searchDocsOf st meta) query ∧
    (∃ d ∈ (searchDocsOf st meta).take 100,
      v = .obj [("content", .str d.doc), ("metadata", chromaMetaToVal d.meta),
        ("distance", .null), ("id", .str d.id)] ∧
      (∃ tok ∈ memQueryTokens query, isSubstrOf tok (lowerStr d.doc) = true) ∧
      matchTopicF meta.topic d.meta.topic = true ∧
      matchKeywordsF meta.keywords d.meta.keywords_csv = true) := by
  refine ⟨rfl, rfl, ?_⟩
  unfold tokenScanHits at hv
  rcases List.mem_map.mp hv with ⟨d, hd, hfd⟩
  rcases List.mem_filter.mp hd with ⟨hdt, hpred⟩
  have hsplit := hpred
  simp only [Bool.and_eq_true] at hsplit
  obtain ⟨⟨htext, htopic⟩, hkw⟩ := hsplit
  refine ⟨d, hdt, hfd.symm, ?_, htopic, hkw⟩
  by_cases hq : (memQueryTokens query).isEmpty
  · rw [if_pos hq] at htext
    exact absurd htext (by simp)
  · rw [if_neg hq] at htext
    rcases List.any_eq_true.mp htext with ⟨tok, htok, hsub⟩
    exact ⟨tok, htok, hsub⟩

/-- C4 witness: the token scan finds the stored transformer note, and a
zero-hit backend success degrades straight to the literal match. -/
theorem C4_search_fallback_witness :
    (Val.obj [("content", .str "transformers are efficient models"),
        ("metadata", chromaMetaToVal
          ⟨"2024-01-01", some "tester", "conversation", "", "", "unknown", "tester", 1/2⟩),
        ("distance", .null), ("id", .str "conversation_1")]) ∈
      tokenScanHits
        (searchDocsOf
          ⟨[⟨"conversation_1", "transformers are efficient models",
            ⟨"2024-01-01", some "tester", "conversation", "", "", "unknown", "tester", 1/2⟩⟩],
           [], [], [], [], none⟩ {})
        "tell me transformers efficiency" ({} : MMeta).topic ({} : MMeta).keywords ∧
    searchResultsList
        ⟨[⟨"conversation_1", "transformers are efficient models",
          ⟨"2024-01-01", some "tester", "conversation", "", "", "unknown", "tester", 1/2⟩⟩],
         [], [], [], [], none⟩ (.ok []) "tell me transformers efficiency" {} =
      literalScanHits
        (searchDocsOf
          ⟨[⟨"conversation_1", "transformers are efficient models",
            ⟨"2024-01-01", some "tester", "conversation", "", "", "unknown", "tester", 1/2⟩⟩],
           [], [], [], [], none⟩ {})
        "tell me transformers efficiency" := by
  have hv : (Val.obj [("content", .str "transformers are efficient models"),
      ("metadata", chromaMetaToVal
        ⟨"2024-01-01", some "tester", "conversation", "", "", "unknown", "tester", 1/2⟩),
      ("distance", .null), ("id", .str "conversation_1")]) ∈
      tokenScanHits
        (searchDocsOf
          ⟨[⟨"conversation_1", "transformers are efficient models",
            ⟨"2024-01-01", some "tester", "conversation", "", "", "unknown", "tester", 1/2⟩⟩],
           [], [], [], [], none⟩ {})
        "tell me transformers efficiency" ({} : MMeta).topic ({} : MMeta).keywords := by
    rw [show tokenScanHits
        (searchDocsOf
          ⟨[⟨"conversation_1", "transformers are efficient models",
            ⟨"2024-01-01", some "tester", "conversation", "", "", "unknown", "tester", 1/2⟩⟩],
           [], [], [], [], none⟩ {})
        "tell me transformers efficiency" ({} : MMeta).topic ({} : MMeta).keywords =
      [Val.obj [("content", .str "transformers are efficient models"),
        ("metadata", chromaMetaToVal
          ⟨"2024-01-01", some "tester", "conversation", "", "", "unknown", "tester", 1/2⟩),
        ("distance", .null), ("id", .str "conversation_1")]] from rfl]
    exact List.mem_singleton_self _
  exact ⟨hv,
    (C4_search_fallback
      ⟨[⟨"conversation_1", "transformers are efficient models",
        ⟨"2024-01-01", some "tester", "conversation", "", "", "unknown", "tester", 1/2⟩⟩],
       [], [], [], [], none⟩
      "tell me transformers efficiency" {} () _ hv).2.1⟩

/-- C10 counterexample: the claim says that with at least one memory hit only
the second memory trace's data and confidence survive in `agent_results`.  With
a `memory_retrieval` step in the plan, the memory worker's own successful result
(data `{"x": 1}`, confidence 0.9) is keyed under the same agent id and
overwrites both traces, while the second trace's confidence is 3/5. -/
theorem C10_overwrite_counterexample :
    (executeTaskPlan ["memory_retrieval"]
        (.obj [("results", .arr [.obj [("content", .str "a")]]), ("best_distance", .null)])
        ⟨"research_agent", true, .obj [], 7/10, 3/2, none⟩
        ⟨"analysis_agent", true, .obj [], 4/5, 1, none⟩
        ⟨"memory_agent", true, .obj [("x", .num 1)], 9/10, 1, none⟩).map
      (fun out => (alookup (synthesizeResponse "q" out.results).agent_results
        "memory_agent").map (fun e => (e.data, e.confidence))) =
      some (some (.obj [("x", .num 1)], 9/10)) ∧
    trace2Conf? Val.null = some (3/5) ∧
    ((9:ℚ)/10 ≠ 3/5) := by
  refine ⟨rfl, rfl, by norm_num⟩

/-- C10 amended: with at least one memory hit and no `memory_retrieval` step in
the plan, the two memory traces are appended first (the first with confidence
0.6, the second with confidence 0.6 for a null best distance and
`max(0.1, 1 - best_distance)` for a numeric one), the execution trace holds
exactly two memory-agent entries, both confidences enter the overall mean, only
the second trace's data and confidence survive in `agent_results`, and a
skipped research step's synthetic confidence is the second trace's. -/
theorem C10_memory_traces (query : String) (order : List String) (mctx : Val)
    (researchR analysisR memoryR : TaskResult) (out : ExecOutcome) (n : ℕ) (rd : Bool) (c : ℚ)
    (hexec : executeTaskPlan order mctx researchR analysisR memoryR = some out)
    (hn : pyLen? (memResultsOf mctx) = some n)
    (hrd : reuseDist? (bdValOf mctx) = some rd)
    (htc : trace2Conf? (bdValOf mctx) = some c)
    (hpos : 0 < n)
    (hno : "memory_retrieval" ∉ order)
    (hrid : researchR.agent_id = "research_agent")
    (haid : analysisR.agent_id = "analysis_agent") :
    out.results.take 2 =
      [memoryTrace1 (memResultsOf mctx) n (bdValOf mctx) (rd || decide (n ≥ 2)),
       memoryTrace2 (memResultsOf mctx) n (bdValOf mctx) c] ∧
    (memoryTrace1 (memResultsOf mctx) n (bdValOf mctx) (rd || decide (n ≥ 2))).confidence = 3/5 ∧
    (bdValOf mctx = .null → c = 3/5) ∧
    (∀ q, bdValOf mctx = .num q → c = max (1/10) (1 - q)) ∧
    alookup (synthesizeResponse query out.results).agent_results "memory_agent" =
      some ⟨(memoryTrace2 (memResultsOf mctx) n (bdValOf mctx) c).data, c, 0⟩ ∧
    ((synthesizeResponse query out.results).execution_trace.filter
      (fun te => te.agent = "memory_agent")).length = 2 ∧
    (synthesizeResponse query out.results).confidence =
      ((out.results.filter (fun r => r.success)).map (fun r => r.confidence)).sum /
        ((out.results.filter (fun r => r.success)).length : ℚ) ∧
    ((rd || decide (n ≥ 2)) = true →
      ∀ r ∈ out.results, r.agent_id = "research_agent" → r.confidence = c) := by
  -- shape of the outcome
  have hshape : out.results = (order.foldl (execStep (rd || decide (n ≥ 2))
      (syntheticResearch (memResultsOf mctx) (bdValOf mctx) c) researchR analysisR memoryR)
      ([memoryTrace1 (memResultsOf mctx) n (bdValOf mctx) (rd || decide (n ≥ 2)),
        memoryTrace2 (memResultsOf mctx) n (bdValOf mctx) c], 0)).1 := by
    rw [executeTaskPlan] at hexec
    simp only [hn, hrd, htc, hpos, Option.bind_eq_bind, Option.some_bind, Option.map_some',
      Option.pure_def, if_true, Option.some.injEq] at hexec
    rw [← hexec]
    rfl
  have hacc := execStep_foldl_acc (rd || decide (n ≥ 2))
    (syntheticResearch (memResultsOf mctx) (bdValOf mctx) c) researchR analysisR memoryR order
    [memoryTrace1 (memResultsOf mctx) n (bdValOf mctx) (rd || decide (n ≥ 2)),
     memoryTrace2 (memResultsOf mctx) n (bdValOf mctx) c] 0
  have hres : out.results =
      [memoryTrace1 (memResultsOf mctx) n (bdValOf mctx) (rd || decide (n ≥ 2)),
       memoryTrace2 (memResultsOf mctx) n (bdValOf mctx) c] ++
      (order.foldl (execStep (rd || decide (n ≥ 2))
        (syntheticResearch (memResultsOf mctx) (bdValOf mctx) c) researchR analysisR memoryR)
        ([], 0)).1 := by rw [hshape, hacc]
  -- the appended tail never carries the memory agent id
  have htail : ∀ r ∈ (order.foldl (execStep (rd || decide (n ≥ 2))
      (syntheticResearch (memResultsOf mctx) (bdValOf mctx) c) researchR analysisR memoryR)
      ([], 0)).1, r.agent_id ≠ "memory_agent" := by
    intro r hr
    rcases execStep_foldl_mem (rd || decide (n ≥ 2))
      (syntheticResearch (memResultsOf mctx) (bdValOf mctx) c) researchR analysisR memoryR
      order ([], 0) r hr with hi | h1 | h2 | h3 | h4
    · simp at hi
    · rw [h1.2.1]; intro hcon; simp [syntheticResearch] at hcon
    · rw [h2.2.1, hrid]; intro hcon; simp at hcon
    · rw [h3.1, haid]; intro hcon; simp at hcon
    · exact absurd h4.2 hno
  refine ⟨?_, ?_, ?_, ?_, ?_, ?_, ?_, ?_⟩
  · rw [hres]; rfl
  · simp [memoryTrace1, hpos]
  · intro hbd; rw [hbd] at htc; simpa [trace2Conf?] using htc.symm
  · intro q hbd; rw [hbd] at htc
    simp only [trace2Conf?, pyFloat?, Option.map_some'] at htc
    exact (Option.some.injEq _ _ ▸ htc).symm
  · -- agent_results lookup
    show alookup (synthLoop [] 0 0 [] out.results).1 "memory_agent" = _
    rw [hres]
    simp only [List.cons_append, List.nil_append]
    rw [synthLoop_cons_true
      (memoryTrace1 (memResultsOf mctx) n (bdValOf mctx) (rd || decide (n ≥ 2))) rfl]
    rw [synthLoop_cons_true (memoryTrace2 (memResultsOf mctx) n (bdValOf mctx) c) rfl]
    rw [synthLoop_lookup_of_no_success _ "memory_agent" _ _ _ _
      (fun r hr _ => htail r hr)]
    rw [show (memoryTrace1 (memResultsOf mctx) n (bdValOf mctx)
        (rd || decide (n ≥ 2))).agent_id = "memory_agent" from rfl]
    rw [show (memoryTrace2 (memResultsOf mctx) n (bdValOf mctx) c).agent_id =
        "memory_agent" from rfl]
    rw [alookup_aupsert]
    rfl
  · show ((synthLoop [] 0 0 [] out.results).2.2.2.filter _).length = 2
    rw [synthLoop_trace, List.nil_append, filter_trace_count, hres]
    rw [List.filter_append]
    have h2 : List.filter (fun r => decide (r.agent_id = "memory_agent"))
        (order.foldl (execStep (rd || decide (n ≥ 2))
          (syntheticResearch (memResultsOf mctx) (bdValOf mctx) c) researchR analysisR memoryR)
          ([], 0)).1 = [] :=
      List.filter_eq_nil_iff.mpr (by intro a ha; simpa using htail a ha)
    rw [h2]
    simp [memoryTrace1, memoryTrace2]
  · show (if (synthLoop [] 0 0 [] out.results).2.2.1 > 0
        then (synthLoop [] 0 0 [] out.results).2.1 / ((synthLoop [] 0 0 [] out.results).2.2.1 : ℚ)
        else 0) = _
    rw [synthLoop_cnt, synthLoop_tot]
    have hposf : 0 < (out.results.filter (fun r => r.success)).length := by
      rw [hres]
      simp [List.filter_append, memoryTrace1, List.filter_cons]
    simp only [Nat.zero_add, zero_add]
    rw [if_pos hposf]
  · intro hsk r hr hrid2
    rw [hres] at hr
    rcases List.mem_append.mp hr with hi | ht
    · rcases List.mem_cons.mp hi with h | h
      · rw [h] at hrid2; simp [memoryTrace1] at hrid2
      · rw [List.mem_singleton.mp h] at hrid2; simp [memoryTrace2] at hrid2
    · rcases execStep_foldl_mem (rd || decide (n ≥ 2))
        (syntheticResearch (memResultsOf mctx) (bdValOf mctx) c) researchR analysisR memoryR
        order ([], 0) r ht with hi | h1 | h2 | h3 | h4
      · simp at hi
      · rw [h1.2.1]; rfl
      · rw [hsk] at h2; exact absurd h2.1 (by simp)
      · rw [h3.1, haid] at hrid2; simp at hrid2
      · exact absurd h4.2 hno

/-- C10 witness: a one-hit context with a research-only plan. -/
theorem C10_memory_traces_witness :
    executeTaskPlan ["research"]
        (.obj [("results", .arr [.obj [("content", .str "a")]]), ("best_distance", .null)])
        ⟨"research_agent", true, .obj [], 7/10, 3/2, none⟩
        ⟨"analysis_agent", true, .obj [], 4/5, 1, none⟩
        ⟨"memory_agent", true, .obj [], 9/10, 1, none⟩ =
      some ⟨[memoryTrace1 (.arr [.obj [("content", .str "a")]]) 1 .null false,
             memoryTrace2 (.arr [.obj [("content", .str "a")]]) 1 .null (3/5),
             ⟨"research_agent", true, .obj [], 7/10, 3/2, none⟩], 1⟩ ∧
    (0 : ℕ) < 1 ∧
    (⟨[memoryTrace1 (.arr [.obj [("content", .str "a")]]) 1 .null false,
       memoryTrace2 (.arr [.obj [("content", .str "a")]]) 1 .null (3/5),
       ⟨"research_agent", true, .obj [], 7/10, 3/2, none⟩], 1⟩ : ExecOutcome).results.take 2 =
      [memoryTrace1
         (memResultsOf (.obj [("results", .arr [.obj [("content", .str "a")]]),
           ("best_distance", .null)]))
         1
         (bdValOf (.obj [("results", .arr [.obj [("content", .str "a")]]),
           ("best_distance", .null)]))
         (false || decide ((1:ℕ) ≥ 2)),
       memoryTrace2
         (memResultsOf (.obj [("results", .arr [.obj [("content", .str "a")]]),
           ("best_distance", .null)]))
         1
         (bdValOf (.obj [("results", .arr [.obj [("content", .str "a")]]),
           ("best_distance", .null)]))
         (3/5)] := by
  refine ⟨rfl, by decide, ?_⟩
  exact (C10_memory_traces "q" ["research"]
    (.obj [("results", .arr [.obj [("content", .str "a")]]), ("best_distance", .null)])
    ⟨"research_agent", true, .obj [], 7/10, 3/2, none⟩
    ⟨"analysis_agent", true, .obj [], 4/5, 1, none⟩
    ⟨"memory_agent", true, .obj [], 9/10, 1, none⟩
    ⟨[memoryTrace1 (.arr [.obj [("content", .str "a")]]) 1 .null false,
      memoryTrace2 (.arr [.obj [("content", .str "a")]]) 1 .null (3/5),
      ⟨"research_agent", true, .obj [], 7/10, 3/2, none⟩], 1⟩
    1 false (3/5) rfl rfl rfl rfl (by decide) (by decide) rfl rfl).1

/-- C1: research is skipped exactly when the context's best distance is a
number at most 0.8 or the hit count is at least 2; a skipped research step
appends a successful research result with execution time 0 whose payload is
`{source: "memory", hits, best_distance, reused: true}` and whose confidence is
the second memory trace's confidence when hits exist (0.5 otherwise), without
invoking the research worker; otherwise the worker runs once per research step
and its result is appended unchanged. -/
theorem C1_adaptive_reuse (order : List String) (mctx : Val)
    (researchR analysisR memoryR : TaskResult) (out : ExecOutcome) (n : ℕ) (rd : Bool)
    (hexec : executeTaskPlan order mctx researchR analysisR memoryR = some out)
    (hn : pyLen? (memResultsOf mctx) = some n)
    (hrd : reuseDist? (bdValOf mctx) = some rd)
    (haid : analysisR.agent_id = "analysis_agent")
    (hmid : memoryR.agent_id = "memory_agent") :
    ((rd || decide (n ≥ 2)) = true ↔
      (∃ q, bdNum? (bdValOf mctx) = some q ∧ q ≤ 4/5) ∨ 2 ≤ n) ∧
    ((rd || decide (n ≥ 2)) = true →
      out.researchCalls = 0 ∧
      ∀ r ∈ out.results, r.agent_id = "research_agent" →
        r.success = true ∧ r.execution_time = 0 ∧
        r.data = Val.obj [("research_results", Val.obj [("source", .str "memory"),
          ("hits", memResultsOf mctx), ("best_distance", bdValOf mctx),
          ("reused", .bool true)])] ∧
        (0 < n → ∃ c, trace2Conf? (bdValOf mctx) = some c ∧
          r.confidence = (memoryTrace2 (memResultsOf mctx) n (bdValOf mctx) c).confidence) ∧
        (n = 0 → r.confidence = 1/2)) ∧
    ((rd || decide (n ≥ 2)) = false →
      out.researchCalls = (order.filter (fun s => s = "research")).length ∧
      ∀ r ∈ out.results, r.agent_id = "research_agent" → r = researchR) := by
  have hiff : ((rd || decide (n ≥ 2)) = true ↔
      (∃ q, bdNum? (bdValOf mctx) = some q ∧ q ≤ 4/5) ∨ 2 ≤ n) := by
    rw [Bool.or_eq_true, decide_eq_true_iff, reuseDist_iff (bdValOf mctx) rd hrd]
  by_cases hpos : 0 < n
  · rcases htc : trace2Conf? (bdValOf mctx) with _ | c
    · exfalso
      rw [executeTaskPlan] at hexec
      simp [hn, hrd, htc, hpos] at hexec
    · have hshape : out.results = (order.foldl (execStep (rd || decide (n ≥ 2))
          (syntheticResearch (memResultsOf mctx) (bdValOf mctx) c) researchR analysisR memoryR)
          ([memoryTrace1 (memResultsOf mctx) n (bdValOf mctx) (rd || decide (n ≥ 2)),
            memoryTrace2 (memResultsOf mctx) n (bdValOf mctx) c], 0)).1 ∧
          out.researchCalls = (order.foldl (execStep (rd || decide (n ≥ 2))
          (syntheticResearch (memResultsOf mctx) (bdValOf mctx) c) researchR analysisR memoryR)
          ([memoryTrace1 (memResultsOf mctx) n (bdValOf mctx) (rd || decide (n ≥ 2)),
            memoryTrace2 (memResultsOf mctx) n (bdValOf mctx) c], 0)).2 := by
        rw [executeTaskPlan] at hexec
        simp only [hn, hrd, htc, hpos, Option.bind_eq_bind, Option.some_bind,
          Option.map_some', Option.pure_def, if_true, Option.some.injEq] at hexec
        rw [← hexec]
        exact ⟨rfl, rfl⟩
      have hre := exec_fold_research_entries (rd || decide (n ≥ 2))
        (syntheticResearch (memResultsOf mctx) (bdValOf mctx) c) researchR analysisR memoryR
        order
        [memoryTrace1 (memResultsOf mctx) n (bdValOf mctx) (rd || decide (n ≥ 2)),
         memoryTrace2 (memResultsOf mctx) n (bdValOf mctx) c]
        (by intro t ht
            rcases List.mem_cons.mp ht with h | h
            · rw [h]; rfl
            · rw [List.mem_singleton.mp h]; rfl)
        haid hmid
      refine ⟨hiff, fun hsk => ⟨?_, fun r hr hrid => ?_⟩, fun hsk => ⟨?_, fun r hr hrid => ?_⟩⟩
      · rw [hshape.2, execStep_foldl_calls, hsk]
        simp
      · rw [hshape.1] at hr
        have heq := hre.1 hsk r hr hrid
        rw [heq]
        refine ⟨rfl, rfl, rfl, fun _ => ⟨c, rfl, rfl⟩, fun h0 => absurd h0 (by omega)⟩
      · rw [hshape.2, execStep_foldl_calls, hsk]
        simp
      · rw [hshape.1] at hr
        exact hre.2 hsk r hr hrid
  · have hn0 : n = 0 := by omega
    subst hn0
    have hshape : out.results = (order.foldl (execStep (rd || decide ((0:ℕ) ≥ 2))
        (syntheticResearch (memResultsOf mctx) (bdValOf mctx) (1/2)) researchR analysisR memoryR)
        ([memoryTrace1 (memResultsOf mctx) 0 (bdValOf mctx) (rd || decide ((0:ℕ) ≥ 2))], 0)).1 ∧
        out.researchCalls = (order.foldl (execStep (rd || decide ((0:ℕ) ≥ 2))
        (syntheticResearch (memResultsOf mctx) (bdValOf mctx) (1/2)) researchR analysisR memoryR)
        ([memoryTrace1 (memResultsOf mctx) 0 (bdValOf mctx) (rd || decide ((0:ℕ) ≥ 2))], 0)).2 := by
      rw [executeTaskPlan] at hexec
      simp only [hn, hrd, Option.bind_eq_bind, Option.some_bind, Option.map_some',
        Option.pure_def, Option.some.injEq, Nat.lt_irrefl, if_false, gt_iff_lt] at hexec
      rw [← hexec]
      exact ⟨rfl, rfl⟩
    have hre := exec_fold_research_entries (rd || decide ((0:ℕ) ≥ 2))
      (syntheticResearch (memResultsOf mctx) (bdValOf mctx) (1/2)) researchR analysisR memoryR
      order
      [memoryTrace1 (memResultsOf mctx) 0 (bdValOf mctx) (rd || decide ((0:ℕ) ≥ 2))]
      (by intro t ht
          rw [List.mem_singleton.mp ht]
          rfl)
      haid hmid
    refine ⟨hiff, fun hsk => ⟨?_, fun r hr hrid => ?_⟩, fun hsk => ⟨?_, fun r hr hrid => ?_⟩⟩
    · rw [hshape.2, execStep_foldl_calls, hsk]
      simp
    · rw [hshape.1] at hr
      have heq := hre.1 hsk r hr hrid
      rw [heq]
      exact ⟨rfl, rfl, rfl, fun h0 => absurd h0 (by omega), fun _ => rfl⟩
    · rw [hshape.2, execStep_foldl_calls, hsk]
      simp
    · rw [hshape.1] at hr
      exact hre.2 hsk r hr hrid

/-- C1 witness: a two-hit context with null best distance skips research. -/
theorem C1_adaptive_reuse_witness :
    executeTaskPlan ["research"]
        (.obj [("results", .arr [.obj [("content", .str "a")], .obj [("content", .str "b")]]),
               ("best_distance", .null)])
        ⟨"research_agent", true, .obj [], 7/10, 3/2, none⟩
        ⟨"analysis_agent", true, .obj [], 4/5, 1, none⟩
        ⟨"memory_agent", true, .obj [], 9/10, 1, none⟩ =
      some ⟨[memoryTrace1 (.arr [.obj [("content", .str "a")], .obj [("content", .str "b")]])
               2 .null true,
             memoryTrace2 (.arr [.obj [("content", .str "a")], .obj [("content", .str "b")]])
               2 .null (3/5),
             syntheticResearch (.arr [.obj [("content", .str "a")], .obj [("content", .str "b")]])
               .null (3/5)], 0⟩ ∧
    (((false : Bool) || decide ((2:ℕ) ≥ 2)) = true ↔
      (∃ q, bdNum? (bdValOf (.obj [("results",
          .arr [.obj [("content", .str "a")], .obj [("content", .str "b")]]),
          ("best_distance", .null)])) = some q ∧ q ≤ 4/5) ∨ 2 ≤ 2) ∧
    ((((false : Bool) || decide ((2:ℕ) ≥ 2)) = true →
      (⟨[memoryTrace1 (.arr [.obj [("content", .str "a")], .obj [("content", .str "b")]])
           2 .null true,
         memoryTrace2 (.arr [.obj [("content", .str "a")], .obj [("content", .str "b")]])
           2 .null (3/5),
         syntheticResearch (.arr [.obj [("content", .str "a")], .obj [("content", .str "b")]])
           .null (3/5)], 0⟩ : ExecOutcome).researchCalls = 0)) := by
  have happ := C1_adaptive_reuse ["research"]
    (.obj [("results", .arr [.obj [("content", .str "a")], .obj [("content", .str "b")]]),
           ("best_distance", .null)])
    ⟨"research_agent", true, .obj [], 7/10, 3/2, none⟩
    ⟨"analysis_agent", true, .obj [], 4/5, 1, none⟩
    ⟨"memory_agent", true, .obj [], 9/10, 1, none⟩
    ⟨[memoryTrace1 (.arr [.obj [("content", .str "a")], .obj [("content", .str "b")]])
        2 .null true,
      memoryTrace2 (.arr [.obj [("content", .str "a")], .obj [("content", .str "b")]])
        2 .null (3/5),
      syntheticResearch (.arr [.obj [("content", .str "a")], .obj [("content", .str "b")]])
        .null (3/5)], 0⟩ 2 false rfl rfl rfl rfl rfl
  exact ⟨rfl, happ.1, fun hsk => (happ.2.1 hsk).1⟩

/-- C2: the claim says every `process_user_query` call unconditionally stores a
new conversation record of the interaction.  The code is a slip: the
`_store_interaction` message's content is the bare query text, and the memory
agent routes by whole-word keywords in the content, so for the query
"What is machine learning" the message falls through to the general handler's
status branch and nothing at all is stored — contradicting `_store_interaction`'s
own docstring ("Store the interaction in memory for future reference"). -/
theorem C2_persist_interaction_code_bug :
  processTaskAction "What is machine learning" = MemAction.statusAct ∧
  storeInteractionState MemState.empty "What is machine learning"
    "Machine learning is a field of artificial intelligence."
    ["memory_agent", "research_agent"] (7/10) "1700000000.123" = MemState.empty := by
  exact ⟨rfl, rfl⟩

/-- C3: the claim says the coordinator's fetch-memory-context step always
performs a Search against the conversation partition.  The code is a slip: the
message it sends carries the right metadata (conversation partition, limit 5)
but its content is the query plus extracted terms, and the memory agent's
whole-word dispatch sends the spec's own warm-reuse query to the status
handler, not to search — so the reuse scenario of the repository's
`adaptive_reuse_test.py` cannot engage. -/
theorem C3_memory_context_code_bug :
  memoryContextContent "Research transformer architectures and summarize tradeoffs" =
    "Research transformer architectures and summarize tradeoffs research transformer architectures summarize tradeoffs" ∧
  (memoryContextMeta "Research transformer architectures and summarize tradeoffs").memory_type =
    some "conversation" ∧
  (memoryContextMeta "Research transformer architectures and summarize tradeoffs").limit =
    some 5 ∧
  processTaskAction
    (memoryContextContent "Research transformer architectures and summarize tradeoffs") =
    MemAction.statusAct := by
  exact ⟨rfl, rfl, rfl, rfl⟩

/-- C7: the claim (and the repository's own `test_memory_agent.py`) says that
after 3 knowledge Stores and 1 conversation Store the stats report
`knowledge_count = 3` and `conversation_count = 1`.  The code is wrong: the
knowledge branch of `_store_memory` evaluates `self._cheap_embed`, which is
never defined, so every knowledge store raises `AttributeError` before writing
and the stats report `knowledge_count = 0`. -/
theorem C7_stats_code_bug :
  (storeMemory MemState.empty "Neural networks overview" "tester"
      { memory_type := some "knowledge" } "1001").2 =
    Except.error "AttributeError: MemoryAgent object has no attribute _cheap_embed" ∧
  getMemoryStats ((storeMemory ((storeMemory ((storeMemory ((storeMemory MemState.empty
      "Neural networks overview" "tester" { memory_type := some "knowledge" } "1001").1)
      "Gradient descent basics" "tester" { memory_type := some "knowledge" } "1002").1)
      "Transformer tradeoffs" "tester" { memory_type := some "knowledge" } "1003").1)
      "Stored a conversation note" "tester" { memory_type := some "conversation" } "1004").1) =
    ⟨1, 0⟩ := by
  exact ⟨rfl, rfl⟩

/-- C6 counterexample: the claim says `_normalize_memory_context` always returns
a `results` sequence whose non-null distances determine `best_distance`.  For
the input `{"memories": {"hit1": {"distance": 0.5}}}` the memories-as-dict
branch passes the dict through: `results` is not a sequence, and although the
single hit carries distance 0.5, iterating the dict yields only its keys, so
`best_distance` is null. -/
theorem C6_normalize_counterexample :
  normalizeMemoryContext (.obj [("memories", .obj [("hit1", .obj [("distance", .num (1/2))])])]) =
    some ⟨.obj [("hit1", .obj [("distance", .num (1/2))])], 1, none⟩ ∧
  Val.isArr (.obj [("hit1", .obj [("distance", .num (1/2))])]) = false ∧
  elemDistance? (.obj [("distance", .num (1/2))]) = some (1/2) := by
  exact ⟨rfl, rfl, rfl⟩

/-- C6 amended: whenever `_normalize_memory_context` returns, `count` is the
Python length of `results`; `best_distance` is the least of the convertible
non-null `distance` fields of the dict-shaped elements obtained by iterating
`results` (the keys, for a dict), or null when there are none; falsy and
non-dict inputs normalize to `{[], 0, null}`.  (`results` is a list except in
the memories-as-dict and action-passthrough branches, where the stored value is
passed through unchanged — the correction the counterexample forces.) -/
theorem C6_normalize_amended (mc : Val) (ctx : NormCtx)
    (h : normalizeMemoryContext mc = some ctx) :
    pyLen? ctx.results = some ctx.count ∧
    (∃ elems, pyElems? ctx.results = some elems ∧
      ((ctx.best_distance = none) ↔ elems.filterMap elemDistance? = []) ∧
      (∀ q, ctx.best_distance = some q →
        q ∈ elems.filterMap elemDistance? ∧ ∀ p ∈ elems.filterMap elemDistance?, q ≤ p)) ∧
    (¬ mc.isTruthy → ctx = ⟨.arr [], 0, none⟩) ∧
    (Val.isObj mc = false → ctx = ⟨.arr [], 0, none⟩) := by
  by_cases ht : mc.isTruthy
  · rw [normalizeMemoryContext, if_neg (by simpa using ht)] at h
    rcases hr : resultsValue? mc with _ | res
    · rw [hr] at h; exact absurd h (by simp)
    · simp only [hr] at h
      rcases he : pyElems? res with _ | elems
      · simp only [he] at h; exact absurd h (by simp)
      · rcases hl : pyLen? res with _ | n
        · simp only [he, hl] at h; exact absurd h (by simp)
        · simp only [he, hl, Option.some.injEq] at h
          subst h
          refine ⟨hl, ⟨elems, he, ?_, ?_⟩, fun hf => absurd ht hf, fun hobj => ?_⟩
          · rw [bestDistLoop_eq]
            rcases hfm : elems.filterMap elemDistance? with _ | ⟨q, qs⟩
            · simp
            · simp
          · intro q hq
            rw [bestDistLoop_eq] at hq
            rcases hfm : elems.filterMap elemDistance? with _ | ⟨q0, qs⟩
            · rw [hfm] at hq; simp at hq
            · rw [hfm] at hq
              simp only [Option.some.injEq] at hq
              constructor
              · rcases foldl_min_mem qs q0 with hm | hm
                · rw [← hq, hm]; exact List.mem_cons_self q0 qs
                · rw [← hq]; exact List.mem_cons_of_mem q0 hm
              · intro p hp
                rcases List.mem_cons.mp hp with hh | hh
                · rw [← hq, hh]; exact foldl_min_le_init qs q0
                · rw [← hq]; exact foldl_min_le_mem qs q0 p hh
          · have hres : resultsValue? mc = some (Val.arr []) := by
              cases mc
              case obj kvs => simp [Val.isObj] at hobj
              all_goals rfl
            rw [hr] at hres
            injection hres with hres
            subst hres
            simp only [pyElems?, Option.some.injEq] at he
            simp only [pyLen?, List.length_nil, Option.some.injEq] at hl
            subst he
            subst hl
            rfl
  · rw [normalizeMemoryContext, if_pos (by simpa using ht)] at h
    simp only [Option.some.injEq] at h
    subst h
    exact ⟨rfl, ⟨[], rfl, by simp [bestDistLoop], by intro q hq; simp [bestDistLoop] at hq⟩,
      fun _ => rfl, fun _ => rfl⟩

/-- C6 witness: a search-shaped context with two hits at distances 3 and 2
normalizes to count 2 and best distance 2. -/
theorem C6_normalize_amended_witness :
    normalizeMemoryContext
        (.obj [("results", .arr [.obj [("distance", .num 3)], .obj [("distance", .num 2)]])]) =
      some ⟨.arr [.obj [("distance", .num 3)], .obj [("distance", .num 2)]], 2, some 2⟩ ∧
    pyLen? (Val.arr [.obj [("distance", .num 3)], .obj [("distance", .num 2)]]) = some 2 :=
  ⟨by rfl,
   (C6_normalize_amended
      (.obj [("results", .arr [.obj [("distance", .num 3)], .obj [("distance", .num 2)]])])
      ⟨.arr [.obj [("distance", .num 3)], .obj [("distance", .num 2)]], 2, some 2⟩
      (by rfl)).1⟩

/-- C4 counterexample: the claim says a zero-hit similarity success also runs
the substring token scan before the literal fallback.  It does not: with one
stored document "transformers are efficient models" and a zero-hit backend
success, the query "tell me transformers efficiency" returns no results at all,
although the token scan (which the exception path would run) matches the
document via the token "transformers". -/
theorem C4_search_counterexample :
  searchResultsList
    ⟨[⟨"conversation_1", "transformers are efficient models",
       ⟨"2024-01-01", some "tester", "conversation", "", "", "unknown", "tester", 1/2⟩⟩],
     [], [], [], [], none⟩
    (.ok []) "tell me transformers efficiency" {} = [] ∧
  (tokenScanHits
    [⟨"conversation_1", "transformers are efficient models",
      ⟨"2024-01-01", some "tester", "conversation", "", "", "unknown", "tester", 1/2⟩⟩]
    "tell me transformers efficiency" none []).length = 1 := by
  exact ⟨rfl, rfl⟩

end MultiAgent
